import Mathlib

/-!
# Gamification progress account of the LMS backend

Shallow embedding of `src/models/UserProgress.js` (the Mongoose model
`UserProgress` and its instance methods), of `src/models/UserRoadmapProgress.js`
and of the request handlers of `src/controllers/gamificationController.js` and
`src/controllers/roadmapController.js` that call them, together with the theorems
that settle the specification's claims about XP, levels, cups, streaks,
achievements and roadmap levels.

Modelling conventions
* Mongoose `Number` fields hold integer values (`Int`), as in the data model of the
  specification. The methods of `UserProgress` are given twice: on exact integers,
  which is what the source computes as long as every number is a safe integer
  (magnitude at most `2 ^ 53`), and in the namespace `UserProgress.Double` with the
  rounding of IEEE doubles after every arithmetic operation and with the outcome of
  the trailing `this.save()`.
* `Date` values are integer millisecond timestamps. `setHours(0, 0, 0, 0)` is the
  start of the local day; `startOfDay` is the case of a zone whose offset from UTC
  never changes, `Zoned.startOfDay` the case of a zone with daylight saving time.
* An identifier is a natural number. Where a handler passes on the identifier string
  of the request unparsed and the source compares strings, the string is a
  `RequestId`: the identifier it denotes and whether it is spelled as `toString()`
  spells it.
* The `while` loop of `addXP` is run with fuel: `none` means that the fuel was
  used up before the loop condition became false.
-/

namespace UserProgress

/-! ## Data model (schema, lines 3-145) -/

/-- Entry of the `achievements` array. -/
structure AchievementEntry where
  achievementId : Nat
  unlockedAt : Int
  progress : Int
  deriving DecidableEq, Repr

/-- The `dailyGoals` sub-document. -/
structure DailyGoals where
  xpGoal : Int
  minutesGoal : Int
  lessonsGoal : Int
  deriving DecidableEq, Repr

/-- The `todayProgress` sub-document. -/
structure TodayProgress where
  xpEarned : Int
  minutesStudied : Int
  lessonsCompleted : Int
  lastResetDate : Int
  deriving DecidableEq, Repr

/-- The `stats` sub-document. -/
structure Stats where
  totalLearningMinutes : Int
  totalLessonsCompleted : Int
  totalCoursesCompleted : Int
  totalQuizzesPassed : Int
  averageQuizScore : Int
  perfectQuizzes : Int
  deriving DecidableEq, Repr

/-- The `rankings` sub-document (`null` is `none`). -/
structure Rankings where
  global : Option Int
  weekly : Option Int
  monthly : Option Int
  deriving DecidableEq, Repr

/-- A `UserProgress` document. -/
structure Account where
  userId : Nat
  level : Int
  xp : Int
  xpToNextLevel : Int
  totalXpEarned : Int
  cups : Int
  totalCupsEarned : Int
  achievements : List AchievementEntry
  currentStreak : Int
  longestStreak : Int
  lastActivityDate : Option Int
  streakFreezeUsed : Int
  dailyGoals : DailyGoals
  todayProgress : TodayProgress
  stats : Stats
  rankings : Rankings
  deriving DecidableEq, Repr

/-- The document `UserProgress.create({ userId })` builds from the schema
defaults; `now` is the value of `Date.now` used for `lastResetDate`. -/
def newAccount (userId : Nat) (now : Int) : Account :=
  { userId := userId
    level := 1
    xp := 0
    xpToNextLevel := 100
    totalXpEarned := 0
    cups := 0
    totalCupsEarned := 0
    achievements := []
    currentStreak := 0
    longestStreak := 0
    lastActivityDate := none
    streakFreezeUsed := 0
    dailyGoals := { xpGoal := 50, minutesGoal := 30, lessonsGoal := 3 }
    todayProgress :=
      { xpEarned := 0, minutesStudied := 0, lessonsCompleted := 0, lastResetDate := now }
    stats :=
      { totalLearningMinutes := 0, totalLessonsCompleted := 0, totalCoursesCompleted := 0,
        totalQuizzesPassed := 0, averageQuizScore := 0, perfectQuizzes := 0 }
    rankings := { global := none, weekly := none, monthly := none } }

/-- The `min` validators of the schema (`level` min 1, `xp` min 0, `cups` min 0),
which `save()` checks; no other numeric field carries a validator. -/
def schemaValid (s : Account) : Bool :=
  decide (1 ≤ s.level) && decide (0 ≤ s.xp) && decide (0 ≤ s.cups)

/-! ## `addXP` (lines 166-179) and `addCups` (lines 182-186) -/

/-- `Math.floor(t * 1.5)` on an integer `t`, in exact arithmetic: the value the
source computes when `3 * t` is a safe integer (see `Double.growThreshold`). -/
def growThreshold (t : Int) : Int := (3 * t) / 2

/-- One iteration of the body of the level-up loop (lines 173-175), in exact
arithmetic. -/
def levelUpStep (s : Account) : Account :=
  { s with
    xp := s.xp - s.xpToNextLevel
    level := s.level + 1
    xpToNextLevel := growThreshold s.xpToNextLevel }

/-- The loop `while (this.xp >= this.xpToNextLevel) { ... }` (lines 172-176),
`fuel` bounding the number of evaluations of the loop condition. -/
def levelUpLoop : Nat → Account → Option Account
  | 0, _ => none
  | fuel + 1, s =>
    if s.xpToNextLevel ≤ s.xp then levelUpLoop fuel (levelUpStep s) else some s

/-- The three additions at the head of `addXP` (lines 167-169), in exact
arithmetic. -/
def creditXP (amount : Int) (s : Account) : Account :=
  { s with
    xp := s.xp + amount
    totalXpEarned := s.totalXpEarned + amount
    todayProgress := { s.todayProgress with xpEarned := s.todayProgress.xpEarned + amount } }

/-- The method `addXP(amount, source)` up to its `save()`, in exact arithmetic; the
body never reads `source`. `Double.addXP` is the method with the rounding of doubles
and with the `save()`. -/
def addXP (fuel : Nat) (amount : Int) (s : Account) : Option Account :=
  levelUpLoop fuel (creditXP amount s)

/-- The method `addCups(amount)` up to its `save()`, in exact arithmetic;
`Double.addCups` is the method with the rounding of doubles and with the `save()`. -/
def addCups (amount : Int) (s : Account) : Account :=
  { s with cups := s.cups + amount, totalCupsEarned := s.totalCupsEarned + amount }

/-! ## `updateStreak` (lines 204-232) -/

/-- Milliseconds in a day, `1000 * 60 * 60 * 24`. -/
def msPerDay : Int := 1000 * 60 * 60 * 24

/-- `d.setHours(0, 0, 0, 0)` on the timestamp `t`, for a zone at the fixed offset
`zone` milliseconds from UTC: the start of the local day that contains `t`. -/
def startOfDay (zone t : Int) : Int := t - (t + zone) % msPerDay

/-- The calendar day (a day number) of the timestamp `t` in the zone. -/
def calendarDay (zone t : Int) : Int := (t + zone) / msPerDay

/-- `Math.floor((today - lastActivity) / (1000 * 60 * 60 * 24))` (line 211). -/
def dayDiff (zone now last : Int) : Int :=
  (startOfDay zone now - startOfDay zone last) / msPerDay

/-- The method `updateStreak()` in a zone at the fixed offset `zone`; `now` is the
clock reading of its `new Date()` calls (lines 205 and 230, taken as one instant).
`Zoned.updateStreak` is the method in a zone with daylight saving time. -/
def updateStreak (zone now : Int) (s : Account) : Account :=
  match s.lastActivityDate with
  | some last =>
    if dayDiff zone now last = 0 then s
    else if dayDiff zone now last = 1 then
      let c := s.currentStreak + 1
      { s with
        currentStreak := c
        longestStreak := if s.longestStreak < c then c else s.longestStreak
        lastActivityDate := some now }
    else { s with currentStreak := 1, lastActivityDate := some now }
  | none => { s with currentStreak := 1, lastActivityDate := some now }

/-! ## `unlockAchievement` (lines 189-201) and `resetDailyProgress` (lines 235-252) -/

/-- An identifier as a request carries it: a string of 24 hexadecimal digits.
`value` is the object identifier the string is cast to (the cast ignores the case
of the digits) and `canonical` says whether the string is spelled as `toString()`
spells an identifier, in lower case. -/
structure RequestId where
  value : Nat
  canonical : Bool
  deriving DecidableEq, Repr

/-- The comparison `stored.toString() === raw` of a stored identifier with the
string of a request: they agree when the string denotes the identifier and is
spelled in lower case. -/
def RequestId.matches (raw : RequestId) (stored : Nat) : Bool :=
  raw.canonical && stored == raw.value

/-- The method `unlockAchievement(achievementId)` up to its `save()`; the handler
passes the string of the request body, which line 190 compares with
`a.achievementId.toString()`; the pushed string is cast to an identifier. `now` is
the value of `new Date()`. -/
def unlockAchievement (now : Int) (achievementId : RequestId) (s : Account) : Account :=
  if s.achievements.any (fun a => achievementId.matches a.achievementId) then s
  else
    { s with
      achievements := s.achievements ++
        [{ achievementId := achievementId.value, unlockedAt := now, progress := 100 }] }

/-- The method `resetDailyProgress()`, `now` being the clock reading of its
`new Date()` calls. -/
def resetDailyProgress (zone now : Int) (s : Account) : Account :=
  if startOfDay zone s.todayProgress.lastResetDate < startOfDay zone now then
    { s with
      todayProgress :=
        { xpEarned := 0, minutesStudied := 0, lessonsCompleted := 0, lastResetDate := now } }
  else s

/-- The identifiers recorded in `achievements`. -/
def achievementIds (s : Account) : List Nat := s.achievements.map (fun a => a.achievementId)

/-! ## Reference quantities -/

/-- Threshold after `k` level-ups from the threshold `t`. -/
def thresholdAfter (t : Int) (k : Nat) : Int := growThreshold^[k] t

/-- XP consumed by the first `k` level-ups from the threshold `t`. -/
def consumedBy (t : Int) (k : Nat) : Int :=
  ∑ i in Finset.range k, thresholdAfter t i

/-- The fields of an account that the level-up loop does not write. -/
def sameOutsideLevel (s s' : Account) : Prop :=
  s'.userId = s.userId ∧ s'.totalXpEarned = s.totalXpEarned ∧ s'.cups = s.cups ∧
  s'.totalCupsEarned = s.totalCupsEarned ∧ s'.achievements = s.achievements ∧
  s'.currentStreak = s.currentStreak ∧ s'.longestStreak = s.longestStreak ∧
  s'.lastActivityDate = s.lastActivityDate ∧ s'.streakFreezeUsed = s.streakFreezeUsed ∧
  s'.dailyGoals = s.dailyGoals ∧ s'.todayProgress = s.todayProgress ∧
  s'.stats = s.stats ∧ s'.rankings = s.rankings

/-! ## Accounts used as concrete inputs -/

/-- A level 1 account with an empty balance and threshold `t`. -/
def accountWithThreshold (t : Int) : Account :=
  { newAccount 0 0 with xpToNextLevel := t }

/-- An account holding 50 XP and 5 cups, all of it counted in the lifetime totals. -/
def fundedAccount : Account :=
  { newAccount 0 0 with xp := 50, totalXpEarned := 50, cups := 5, totalCupsEarned := 5 }

/-- An account with a streak of 3 whose last activity is on day 5 (zone offset 0). -/
def streakAccount : Account :=
  { newAccount 0 0 with
    currentStreak := 3, longestStreak := 3, lastActivityDate := some (5 * 86400000) }

/-! ## The methods on IEEE doubles, with the outcome of `save()`

The definitions above compute on exact integers; they agree with the source as
long as every number involved is a safe integer (magnitude at most `2 ^ 53`). The
definitions of this section round every sum, difference and product as JavaScript
does on `Number` values that hold integers (IEEE 754 binary64, round to nearest,
ties to even; magnitudes below `2 ^ 1024`), and they carry the outcome of the
`save()` call that ends each method. -/

namespace Double

/-- The integer nearest to `n / p`, a tie going to the even neighbour. -/
def roundHalfEven (n p : Nat) : Nat :=
  if 2 * (n % p) < p then n / p
  else if p < 2 * (n % p) then n / p + 1
  else if (n / p) % 2 = 0 then n / p else n / p + 1

/-- Doubles `p` until `n < 2 ^ 53 * p`. -/
def spacingFrom : Nat → Nat → Nat → Nat
  | 0, _, p => p
  | fuel + 1, n, p => if n < 9007199254740992 * p then p else spacingFrom fuel n (2 * p)

/-- The distance between neighbouring doubles at the magnitude `n`: the least power
of two `p` with `n < 2 ^ 53 * p`. -/
def spacing (n : Nat) : Nat := spacingFrom 1100 n 1

/-- The double nearest to the natural number `n`. -/
def roundNat (n : Nat) : Nat := spacing n * roundHalfEven n (spacing n)

/-- The double nearest to the integer `x`: the value a JavaScript operation stores
when its exact result is `x`. Integers up to `2 ^ 53` in magnitude are doubles. -/
def fl (x : Int) : Int :=
  if -9007199254740992 ≤ x ∧ x ≤ 9007199254740992 then x
  else if 0 ≤ x then (roundNat x.toNat : Int) else -(roundNat (-x).toNat : Int)

/-- `Math.floor(t * 1.5)`: the product is rounded to a double, then floored. -/
def growThreshold (t : Int) : Int := fl (3 * t) / 2

/-- One iteration of the body of the level-up loop (lines 173-175). -/
def levelUpStep (s : Account) : Account :=
  { s with
    xp := fl (s.xp - s.xpToNextLevel)
    level := fl (s.level + 1)
    xpToNextLevel := growThreshold s.xpToNextLevel }

/-- The loop of lines 172-176, with fuel. -/
def levelUpLoop : Nat → Account → Option Account
  | 0, _ => none
  | fuel + 1, s =>
    if s.xpToNextLevel ≤ s.xp then levelUpLoop fuel (levelUpStep s) else some s

/-- The three additions of lines 167-169. -/
def creditXP (amount : Int) (s : Account) : Account :=
  { s with
    xp := fl (s.xp + amount)
    totalXpEarned := fl (s.totalXpEarned + amount)
    todayProgress :=
      { s.todayProgress with xpEarned := fl (s.todayProgress.xpEarned + amount) } }

/-- Outcome of `this.save()`: the document was written, or a schema validator
refused it and the stored document is still the one from before the call. Either
way `doc` is the stored document after the call. -/
inductive SaveResult where
  | saved (doc : Account)
  | rejected (doc : Account)
  deriving DecidableEq, Repr

/-- The stored document after the call. -/
def SaveResult.doc : SaveResult → Account
  | .saved d => d
  | .rejected d => d

/-- `this.save()` on the changed document `changed` of the stored document
`stored`. -/
def save (stored changed : Account) : SaveResult :=
  if schemaValid changed then SaveResult.saved changed else SaveResult.rejected stored

/-- The method `addXP(amount, source)` (lines 166-179); `none` when the loop does
not end within the fuel. -/
def addXP (fuel : Nat) (amount : Int) (s : Account) : Option SaveResult :=
  (levelUpLoop fuel (creditXP amount s)).map (save s)

/-- The method `addCups(amount)` (lines 182-186). -/
def addCups (amount : Int) (s : Account) : SaveResult :=
  save s { s with cups := fl (s.cups + amount), totalCupsEarned := fl (s.totalCupsEarned + amount) }

/-- Stored accounts obtained from a newly created one by `addXP` calls with positive
amounts. -/
inductive Reachable : Account → Prop
  | init (userId : Nat) (now : Int) : Reachable (newAccount userId now)
  | grant {s : Account} {r : SaveResult} (fuel : Nat) (amount : Int) :
      Reachable s → 0 < amount → addXP fuel amount s = some r → Reachable r.doc

/-- The numbers of a grant are safe integers: `3 * (xp + amount) ≤ 2 ^ 53`, so that
the product `t * 1.5` is exact for every threshold `t` the loop can pass,
`level + (xp + amount) ≤ 2 ^ 53`, so that every increment of the level is exact, and
the three sums of lines 167-169 have a magnitude of at most `2 ^ 53`. -/
def SafeGrant (s : Account) (amount : Int) : Prop :=
  3 * (s.xp + amount) ≤ 9007199254740992 ∧ -9007199254740992 ≤ s.xp + amount ∧
  -9007199254740992 ≤ s.level ∧ s.level + (s.xp + amount) ≤ 9007199254740992 ∧
  -9007199254740992 ≤ s.totalXpEarned + amount ∧ s.totalXpEarned + amount ≤ 9007199254740992 ∧
  -9007199254740992 ≤ s.todayProgress.xpEarned + amount ∧
  s.todayProgress.xpEarned + amount ≤ 9007199254740992

/-- The account with threshold 1 at the level `level`, right after `2 ^ 54` XP were
credited to it. -/
def spinning (level : Int) : Account :=
  { newAccount 0 0 with
    level := level, xp := 18014398509481984, xpToNextLevel := 1,
    totalXpEarned := 18014398509481984,
    todayProgress := { (newAccount 0 0).todayProgress with xpEarned := 18014398509481984 } }

/-- The newly created account after a grant of 120 XP. -/
def afterFirstGrant : Account :=
  { newAccount 0 0 with
    level := 2, xp := 20, xpToNextLevel := 150, totalXpEarned := 120,
    todayProgress := { (newAccount 0 0).todayProgress with xpEarned := 120 } }

/-- The newly created account after one grant of `10 ^ 17` XP. -/
def afterLargeGrant : Account :=
  { newAccount 0 0 with
    level := 84, xp := 17818250073463260, xpToNextLevel := 41090874963268480,
    totalXpEarned := 100000000000000000,
    todayProgress := { (newAccount 0 0).todayProgress with xpEarned := 100000000000000000 } }

/-- An account that has earned `2 ^ 53` XP over its lifetime and holds `2 ^ 53` cups. -/
def saturatedAccount : Account :=
  { newAccount 0 0 with
    totalXpEarned := 9007199254740992, cups := 9007199254740992,
    totalCupsEarned := 9007199254740992 }

end Double

/-! ## `updateStreak` in a zone with daylight saving time

`setHours(0, 0, 0, 0)` works in the local time of the process. The definitions of
`startOfDay`, `calendarDay`, `dayDiff` and `updateStreak` above are the case of a
zone whose offset never changes; here the offset depends on the instant. -/

/-- A time zone: the offset from UTC in milliseconds that is in effect at the
instant `t`, and the offset with which a local time value `l` is converted back to
an instant. -/
structure Zone where
  offsetAt : Int → Int
  offsetAtLocal : Int → Int

/-- A zone whose offset never changes. -/
def fixedZone (offset : Int) : Zone :=
  { offsetAt := fun _ => offset, offsetAtLocal := fun _ => offset }

/-- America/New_York around the start of daylight saving time on 2024-03-10: UTC-5
before 07:00 UTC of that day (02:00 local time), UTC-4 from then on. -/
def newYork2024 : Zone :=
  { offsetAt := fun t => if t < 1710054000000 then -18000000 else -14400000
    offsetAtLocal := fun l => if l < 1710036000000 then -18000000 else -14400000 }

namespace Zoned

/-- The calendar day (a day number) of the instant `t` in the zone. -/
def calendarDay (z : Zone) (t : Int) : Int := (t + z.offsetAt t) / msPerDay

/-- `d.setHours(0, 0, 0, 0)`: the instant at which the local day of `t` starts. -/
def startOfDay (z : Zone) (t : Int) : Int :=
  calendarDay z t * msPerDay - z.offsetAtLocal (calendarDay z t * msPerDay)

/-- `Math.floor((today - lastActivity) / (1000 * 60 * 60 * 24))` (line 211). -/
def dayDiff (z : Zone) (now last : Int) : Int :=
  (startOfDay z now - startOfDay z last) / msPerDay

/-- The method `updateStreak()` (lines 204-232) in the zone `z`. -/
def updateStreak (z : Zone) (now : Int) (s : Account) : Account :=
  match s.lastActivityDate with
  | some last =>
    if dayDiff z now last = 0 then s
    else if dayDiff z now last = 1 then
      let c := s.currentStreak + 1
      { s with
        currentStreak := c
        longestStreak := if s.longestStreak < c then c else s.longestStreak
        lastActivityDate := some now }
    else { s with currentStreak := 1, lastActivityDate := some now }
  | none => { s with currentStreak := 1, lastActivityDate := some now }

/-- An account with a streak of 3 whose last activity was at the instant `last`. -/
def streakSince (last : Int) : Account :=
  { newAccount 0 0 with currentStreak := 3, longestStreak := 3, lastActivityDate := some last }

end Zoned

end UserProgress

/-! # Catalogue and roadmap documents

`src/models/Achievement.js`, `src/models/RoadmapLevel.js` and
`src/models/UserRoadmapProgress.js`. Object identifiers are natural numbers; the
sources compare them through `toString()`, which is equality of identifiers.
Display fields (titles, icons, colours) are left out. -/

namespace Achievement

/-- An `Achievement` document: its identifier, the two rewards and
`stats.totalUnlocked`. -/
structure Document where
  id : Nat
  xpReward : Int
  cupsReward : Int
  totalUnlocked : Int
  deriving DecidableEq, Repr

end Achievement

namespace RoadmapLevel

/-- The `unlockRequirements` sub-document (an absent `previousLevel` is `none`). -/
structure UnlockRequirements where
  previousLevel : Option Nat
  minXP : Int
  minCups : Int
  requiredAchievements : List Nat
  requiredLessons : List Nat
  deriving DecidableEq, Repr

/-- An entry of the `lessons` array. -/
structure LessonRef where
  lessonId : Nat
  order : Int
  isRequired : Bool
  deriving DecidableEq, Repr

/-- The `rewards` sub-document. -/
structure Rewards where
  xp : Int
  cups : Int
  badge : Option Nat
  deriving DecidableEq, Repr

/-- The counters of the `stats` sub-document; `averageCompletionTime`, a floating
point mean, is not represented. -/
structure LevelStats where
  totalStarted : Int
  totalCompleted : Int
  deriving DecidableEq, Repr

/-- A `RoadmapLevel` document. -/
structure Level where
  id : Nat
  courseId : Nat
  levelNumber : Int
  unlockRequirements : UnlockRequirements
  lessons : List LessonRef
  rewards : Rewards
  stats : LevelStats
  deriving DecidableEq, Repr

end RoadmapLevel

namespace UserRoadmapProgress

/-- Entry of `unlockedLevels`. -/
structure UnlockedEntry where
  levelId : Nat
  unlockedAt : Int
  deriving DecidableEq, Repr

/-- Entry of `completedLevels`. -/
structure CompletedEntry where
  levelId : Nat
  completedAt : Int
  score : Int
  timeTaken : Int
  deriving DecidableEq, Repr

/-- Entry of `levelProgress`. -/
structure LevelProgressEntry where
  levelId : Nat
  completedLessons : List Nat
  totalLessons : Int
  progressPercentage : Int
  startedAt : Option Int
  deriving DecidableEq, Repr

/-- A `UserRoadmapProgress` document. -/
structure Progress where
  userId : Nat
  courseId : Nat
  currentLevel : Option Nat
  unlockedLevels : List UnlockedEntry
  completedLevels : List CompletedEntry
  levelProgress : List LevelProgressEntry
  totalXpEarned : Int
  totalCupsEarned : Int
  deriving DecidableEq, Repr

/-- The document `UserRoadmapProgress.create({ userId, courseId })` builds from the
schema defaults. -/
def create (userId courseId : Nat) : Progress :=
  { userId := userId
    courseId := courseId
    currentLevel := none
    unlockedLevels := []
    completedLevels := []
    levelProgress := []
    totalXpEarned := 0
    totalCupsEarned := 0 }

/-- The method `unlockLevel(levelId)` (lines 94-107). -/
def unlockLevel (now : Int) (levelId : Nat) (p : Progress) : Progress :=
  if p.unlockedLevels.any (fun l => l.levelId == levelId) then p
  else
    { p with
      unlockedLevels := p.unlockedLevels ++ [{ levelId := levelId, unlockedAt := now }]
      currentLevel := some levelId }

/-- The method `completeLevel(levelId, score, timeTaken)` (lines 110-123). -/
def completeLevel (now : Int) (levelId : Nat) (score timeTaken : Int) (p : Progress) :
    Progress :=
  if p.completedLevels.any (fun l => l.levelId == levelId) then p
  else
    { p with
      completedLevels := p.completedLevels ++
        [{ levelId := levelId, completedAt := now, score := score, timeTaken := timeTaken }] }

/-- The level identifiers recorded in `unlockedLevels`. -/
def unlockedIds (p : Progress) : List Nat := p.unlockedLevels.map (fun l => l.levelId)

/-- The level identifiers recorded in `completedLevels`. -/
def completedIds (p : Progress) : List Nat := p.completedLevels.map (fun l => l.levelId)

/-- `Math.round((n / totalLessons) * 100)` for a count `n` and `totalLessons > 0`,
in exact arithmetic: the integer nearest to `100 * n / totalLessons`, a half being
rounded up. `Raw.roundPercent` is the computation on doubles. -/
def roundPercent (n : Nat) (totalLessons : Int) : Int :=
  (200 * (n : Int) + totalLessons) / (2 * totalLessons)

/-- Lines 140-144 applied to an entry, for a lesson identifier in the spelling of
`toString()`: the lesson is pushed unless the list has it, then the percentage is
recomputed from the length of the list. `Raw.recordLesson` takes the string of the
request. -/
def recordLesson (lessonId : Nat) (totalLessons : Int) (e : LevelProgressEntry) :
    LevelProgressEntry :=
  let lessons :=
    if e.completedLessons.contains lessonId then e.completedLessons
    else e.completedLessons ++ [lessonId]
  { e with
    completedLessons := lessons
    progressPercentage := roundPercent lessons.length totalLessons }

/-- Applies `f` to the first entry of the level, the one `levelProgress.find`
returns and the method writes to. -/
def updateFirst (levelId : Nat) (f : LevelProgressEntry → LevelProgressEntry) :
    List LevelProgressEntry → List LevelProgressEntry
  | [] => []
  | e :: es => if e.levelId == levelId then f e :: es else e :: updateFirst levelId f es

/-- The method `updateLevelProgress(levelId, completedLessonId, totalLessons)`
(lines 126-147). When `find` returns a stored entry, lines 140-144 write to that
entry. When there is none, line 137 pushes a plain object onto the Mongoose
document array `levelProgress`, which stores a subdocument built from the object
as it is at that moment (no lessons, percentage 0); the local variable `progress`
keeps naming the plain object, so the writes of lines 140-144 do not reach the
stored entry on this path. -/
def updateLevelProgress (now : Int) (levelId lessonId : Nat) (totalLessons : Int)
    (p : Progress) : Progress :=
  match p.levelProgress.find? (fun e => e.levelId == levelId) with
  | some _ =>
    { p with
      levelProgress := updateFirst levelId (recordLesson lessonId totalLessons) p.levelProgress }
  | none =>
    { p with
      levelProgress := p.levelProgress ++
        [{ levelId := levelId, completedLessons := [], totalLessons := totalLessons,
           progressPercentage := 0, startedAt := some now }] }

/-- The level identifiers that have an entry in `levelProgress`. -/
def progressIds (p : Progress) : List Nat := p.levelProgress.map (fun e => e.levelId)

/-! ## `updateLevelProgress` on the lesson string of the request, with doubles

The handler hands the path segment `req.params.lessonId` to the method unparsed,
`includes` compares it with the stored identifiers as a string, and the percentage
is computed on doubles. A non-negative double is written here as a pair `(m, e)` of
natural numbers that stands for `m / 2 ^ e`. -/

namespace Raw

/-- The least `e` from `e` on, at most `fuel` steps further, with
`2 ^ 52 * t ≤ n * 2 ^ e`. -/
def scaleFrom : Nat → Nat → Nat → Nat → Nat
  | 0, _, _, e => e
  | fuel + 1, n, t, e =>
    if 4503599627370496 * t ≤ n * 2 ^ e then e else scaleFrom fuel n t (e + 1)

/-- The double `n / t` for natural numbers `n` and `t > 0` that are doubles: the
quotient rounded to a significand of 53 bits (to nearest, ties to even); the
exponent of the spacing is at least `-1074`. -/
def divide (n t : Nat) : Nat × Nat :=
  if n = 0 then (0, 0)
  else if 9007199254740992 * t ≤ n then
    (UserProgress.Double.spacing (n / t)
      * UserProgress.Double.roundHalfEven n (t * UserProgress.Double.spacing (n / t)), 0)
  else (UserProgress.Double.roundHalfEven (n * 2 ^ scaleFrom 1074 n t 0) t, scaleFrom 1074 n t 0)

/-- The double `x * 100`. -/
def timesHundred (x : Nat × Nat) : Nat × Nat := (UserProgress.Double.roundNat (100 * x.1), x.2)

/-- `Math.round(x)` for `x ≥ 0`: the nearest integer, a half being rounded up. -/
def mathRound (x : Nat × Nat) : Int := ((2 * x.1 + 2 ^ x.2) / 2 ^ (x.2 + 1) : Nat)

/-- `Math.round((n / totalLessons) * 100)` (line 144) for a count `n` and
`totalLessons > 0`. -/
def roundPercent (n : Nat) (totalLessons : Int) : Int :=
  mathRound (timesHundred (divide n totalLessons.toNat))

/-- Lines 140-144 applied to a stored entry: `includes` compares the stored
identifiers with the string `lessonId`, the string is pushed (and cast to an
identifier) unless one of them is spelled like it, then the percentage is recomputed
from the length of the list. -/
def recordLesson (lessonId : UserProgress.RequestId) (totalLessons : Int)
    (e : LevelProgressEntry) : LevelProgressEntry :=
  let lessons :=
    if e.completedLessons.any (fun stored => lessonId.matches stored) then e.completedLessons
    else e.completedLessons ++ [lessonId.value]
  { e with
    completedLessons := lessons
    progressPercentage := roundPercent lessons.length totalLessons }

/-- The method `updateLevelProgress(levelId, completedLessonId, totalLessons)`
(lines 126-147) with the lesson as the string of the request; `levelId` is the
identifier `level._id` that the handler passes. The two paths are those of
`UserRoadmapProgress.updateLevelProgress`. -/
def updateLevelProgress (now : Int) (levelId : Nat) (lessonId : UserProgress.RequestId)
    (totalLessons : Int) (p : Progress) : Progress :=
  match p.levelProgress.find? (fun e => e.levelId == levelId) with
  | some _ =>
    { p with
      levelProgress := updateFirst levelId (recordLesson lessonId totalLessons) p.levelProgress }
  | none =>
    { p with
      levelProgress := p.levelProgress ++
        [{ levelId := levelId, completedLessons := [], totalLessons := totalLessons,
           progressPercentage := 0, startedAt := some now }] }

/-- Roadmap documents obtained from a newly created one by calls of the three
methods, `updateLevelProgress` always with `totalLessons > 0`. -/
inductive Reachable : Progress → Prop
  | init (userId courseId : Nat) : Reachable (create userId courseId)
  | unlock {p : Progress} (now : Int) (levelId : Nat) :
      Reachable p → Reachable (unlockLevel now levelId p)
  | complete {p : Progress} (now : Int) (levelId : Nat) (score timeTaken : Int) :
      Reachable p → Reachable (completeLevel now levelId score timeTaken p)
  | lesson {p : Progress} (now : Int) (levelId : Nat) (lessonId : UserProgress.RequestId)
      (totalLessons : Int) :
      Reachable p → 0 < totalLessons →
      Reachable (updateLevelProgress now levelId lessonId totalLessons p)

/-- The same, where every `updateLevelProgress` call leaves at most `totalLessons`
recorded lessons in the entry of its level. -/
inductive ReachableWithin : Progress → Prop
  | init (userId courseId : Nat) : ReachableWithin (create userId courseId)
  | unlock {p : Progress} (now : Int) (levelId : Nat) :
      ReachableWithin p → ReachableWithin (unlockLevel now levelId p)
  | complete {p : Progress} (now : Int) (levelId : Nat) (score timeTaken : Int) :
      ReachableWithin p → ReachableWithin (completeLevel now levelId score timeTaken p)
  | lesson {p : Progress} (now : Int) (levelId : Nat) (lessonId : UserProgress.RequestId)
      (totalLessons : Int) :
      ReachableWithin p → 0 < totalLessons →
      (∀ e ∈ (updateLevelProgress now levelId lessonId totalLessons p).levelProgress,
        e.levelId = levelId → (e.completedLessons.length : Int) ≤ totalLessons) →
      ReachableWithin (updateLevelProgress now levelId lessonId totalLessons p)

/-- The document after the lessons 10 and 11 of level 3, which has two lessons, were
recorded (three calls: the first one creates the entry). -/
def twoLessonsDone : Progress :=
  updateLevelProgress 2 3 { value := 11, canonical := true } 2
    (updateLevelProgress 1 3 { value := 10, canonical := true } 2
      (updateLevelProgress 0 3 { value := 10, canonical := true } 2 (create 0 0)))

end Raw

end UserRoadmapProgress

/-! # Request handlers of `src/controllers/roadmapController.js` -/

namespace RoadmapController

/-- The documents a roadmap request of one user works on: the level found by its
identifier (the handlers answer 404 before anything else when there is none), the
user's roadmap progress for the course of that level, if any, and the user's
`UserProgress` account. -/
structure World where
  level : RoadmapLevel.Level
  progress : Option UserRoadmapProgress.Progress
  account : UserProgress.Account
  deriving DecidableEq, Repr

/-- HTTP status of the reply together with the documents after the request. -/
structure Reply where
  status : Nat
  world : World
  deriving DecidableEq, Repr

/-- The handler `unlockLevel` (lines 212-243) for the user `userId`. -/
def unlockLevel (now : Int) (userId : Nat) (w : World) : Reply :=
  let progress :=
    match w.progress with
    | some p => p
    | none => UserRoadmapProgress.create userId w.level.courseId
  { status := 200
    world :=
      { w with
        progress := some (UserRoadmapProgress.unlockLevel now w.level.id progress)
        level :=
          { w.level with
            stats := { w.level.stats with totalStarted := w.level.stats.totalStarted + 1 } } } }

/-- The handler `completeLevel` (lines 250-294) for a request whose body carries
the numbers `score` and `timeTaken`. The running average
`stats.averageCompletionTime` of lines 281-285 is not among the modelled fields of
the level; with a number `timeTaken` it is a number again and `level.save()`
succeeds. A body without `timeTaken` is outside this definition: there the average
becomes `NaN` and `level.save()` fails after the roadmap document was saved. -/
def completeLevel (now score timeTaken : Int) (w : World) : Reply :=
  match w.progress with
  | none => { status := 404, world := w }
  | some progress =>
    let p₁ := UserRoadmapProgress.completeLevel now w.level.id score timeTaken progress
    let p₂ :=
      if w.level.rewards.xp ≠ 0 then
        { p₁ with totalXpEarned := p₁.totalXpEarned + w.level.rewards.xp }
      else p₁
    let p₃ :=
      if w.level.rewards.cups ≠ 0 then
        { p₂ with totalCupsEarned := p₂.totalCupsEarned + w.level.rewards.cups }
      else p₂
    { status := 200
      world :=
        { w with
          progress := some p₃
          level :=
            { w.level with
              stats :=
                { w.level.stats with totalCompleted := w.level.stats.totalCompleted + 1 } } } }

/-- A reason string pushed by `checkLevelUnlock`: `'Previous level not completed'`,
``Need ${minXP} XP (current: ${totalXpEarned})`` or
``Need ${minCups} cups (current: ${totalCupsEarned})``, kept as the values that are
interpolated. -/
inductive Reason where
  | previousLevelNotCompleted
  | needXP (minXP current : Int)
  | needCups (minCups current : Int)
  deriving DecidableEq, Repr

/-- The three bodies `checkLevelUnlock` answers with status 200:
`{ unlocked: false, reason: 'No progress found' }`, `{ unlocked: true }` and
`{ unlocked, reasons }`. -/
inductive CheckReply where
  | noProgress
  | alreadyUnlocked
  | checked (unlocked : Bool) (reasons : List Reason)
  deriving DecidableEq, Repr

/-- The `unlocked` field of the reply. -/
def CheckReply.unlocked : CheckReply → Bool
  | .noProgress => false
  | .alreadyUnlocked => true
  | .checked u _ => u

/-- The `reasons` field of the reply, empty where the body has none. -/
def CheckReply.reasons : CheckReply → List Reason
  | .noProgress => []
  | .alreadyUnlocked => []
  | .checked _ rs => rs

/-- The `reasons` array built by lines 175-196 of `checkLevelUnlock`; the guards
`requirements.previousLevel`, `requirements.minXP` and `requirements.minCups` are
truthiness tests (an identifier is present, a number is not zero). -/
def unlockReasons (level : RoadmapLevel.Level) (p : UserRoadmapProgress.Progress) :
    List Reason :=
  (match level.unlockRequirements.previousLevel with
    | some q =>
      if p.completedLevels.any (fun l => l.levelId == q) then []
      else [Reason.previousLevelNotCompleted]
    | none => []) ++
  (if level.unlockRequirements.minXP ≠ 0 ∧ p.totalXpEarned < level.unlockRequirements.minXP then
      [Reason.needXP level.unlockRequirements.minXP p.totalXpEarned]
    else []) ++
  (if level.unlockRequirements.minCups ≠ 0 ∧
        p.totalCupsEarned < level.unlockRequirements.minCups then
      [Reason.needCups level.unlockRequirements.minCups p.totalCupsEarned]
    else [])

/-- The handler `checkLevelUnlock` (lines 144-205); it writes no document. -/
def checkLevelUnlock (w : World) : CheckReply :=
  match w.progress with
  | none => CheckReply.noProgress
  | some p =>
    if p.unlockedLevels.any (fun l => l.levelId == w.level.id) then CheckReply.alreadyUnlocked
    else
      CheckReply.checked (decide ((unlockReasons w.level p).length = 0)) (unlockReasons w.level p)

/-- The handler `updateLessonProgress` (lines 301-323) with the lesson as the string
`req.params.lessonId` of the request path, for a level that has at least one
lesson. -/
def updateLessonProgress (now : Int) (lessonId : UserProgress.RequestId) (w : World) : Reply :=
  match w.progress with
  | none => { status := 404, world := w }
  | some p =>
    { status := 200
      world :=
        { w with
          progress := some (UserRoadmapProgress.Raw.updateLevelProgress now w.level.id lessonId
            w.level.lessons.length p) } }

/-- The unmet requirements in the words of the specification: the previous level,
if any, is not in `completedLevels`; the total XP is below `minXP`; the total cups
are below `minCups`. -/
def specUnmetReasons (level : RoadmapLevel.Level) (p : UserRoadmapProgress.Progress) :
    List Reason :=
  (match level.unlockRequirements.previousLevel with
    | some q =>
      if q ∈ UserRoadmapProgress.completedIds p then [] else [Reason.previousLevelNotCompleted]
    | none => []) ++
  (if p.totalXpEarned < level.unlockRequirements.minXP then
      [Reason.needXP level.unlockRequirements.minXP p.totalXpEarned]
    else []) ++
  (if p.totalCupsEarned < level.unlockRequirements.minCups then
      [Reason.needCups level.unlockRequirements.minCups p.totalCupsEarned]
    else [])

/-- A level with identifier `id` in course 0 that rewards 50 XP and 5 cups. -/
def rewardingLevel (id : Nat) : RoadmapLevel.Level :=
  { id := id
    courseId := 0
    levelNumber := id
    unlockRequirements :=
      { previousLevel := none, minXP := 0, minCups := 0, requiredAchievements := [],
        requiredLessons := [] }
    lessons := []
    rewards := { xp := 50, cups := 5, badge := none }
    stats := { totalStarted := 0, totalCompleted := 0 } }

/-- The user has unlocked level 1 of course 0 and nothing else; the request is about
level 2. -/
def onlyFirstUnlocked : World :=
  { level := rewardingLevel 2
    progress := some (UserRoadmapProgress.unlockLevel 0 1 (UserRoadmapProgress.create 0 0))
    account := UserProgress.newAccount 0 0 }

/-- Level 2 of course 0 with `minXP = 100` and the required achievement 7. -/
def gatedLevel : RoadmapLevel.Level :=
  { rewardingLevel 2 with
    unlockRequirements :=
      { previousLevel := none, minXP := 100, minCups := 0, requiredAchievements := [7],
        requiredLessons := [] } }

/-- A request about `gatedLevel` by a user whose roadmap document has nothing
unlocked and `totalXpEarned = roadmapXp`, and whose account is `account`. -/
def gatedWorld (roadmapXp : Int) (account : UserProgress.Account) : World :=
  { level := gatedLevel
    progress := some { UserRoadmapProgress.create 0 0 with totalXpEarned := roadmapXp }
    account := account }

/-- A request about a level with one lesson by a user with a new roadmap document. -/
def oneLessonWorld : World :=
  { level := { rewardingLevel 3 with lessons := [{ lessonId := 10, order := 1, isRequired := true }] }
    progress := some (UserRoadmapProgress.create 0 0)
    account := UserProgress.newAccount 0 0 }

end RoadmapController

/-! # The handler `unlockAchievement` of `src/controllers/gamificationController.js` -/

namespace GamificationController

/-- Reply of `unlockAchievement`: HTTP status and the two documents after the
request. -/
structure UnlockReply where
  status : Nat
  progress : UserProgress.Account
  achievement : Achievement.Document
  deriving DecidableEq, Repr

/-- The handler `unlockAchievement` (lines 193-234) on the achievement found by
`findById` (404 when there is none), the string `achievementId` of the request body
and the user's account, found or newly created. Line 208 compares the stored
identifiers with that string. Each awaited method ends in `save()`; a validation
error leaves the handler through the error middleware with status 400. `fuel` is
handed to `addXP`. -/
def unlockAchievement (fuel : Nat) (now : Int) (achievement : Achievement.Document)
    (achievementId : UserProgress.RequestId) (progress : UserProgress.Account) :
    Option UnlockReply :=
  if progress.achievements.any (fun a => achievementId.matches a.achievementId) then
    some { status := 400, progress := progress, achievement := achievement }
  else
    match UserProgress.Double.save progress
        (UserProgress.unlockAchievement now achievementId progress) with
    | .rejected p => some { status := 400, progress := p, achievement := achievement }
    | .saved p₁ =>
      match (if 0 < achievement.xpReward then
          UserProgress.Double.addXP fuel achievement.xpReward p₁
        else some (UserProgress.Double.SaveResult.saved p₁)) with
      | none => none
      | some (.rejected p) => some { status := 400, progress := p, achievement := achievement }
      | some (.saved p₂) =>
        match (if 0 < achievement.cupsReward then
            UserProgress.Double.addCups achievement.cupsReward p₂
          else UserProgress.Double.SaveResult.saved p₂) with
        | .rejected p => some { status := 400, progress := p, achievement := achievement }
        | .saved p₃ =>
          some
            { status := 200
              progress := p₃
              achievement :=
                { achievement with
                  totalUnlocked := UserProgress.Double.fl (achievement.totalUnlocked + 1) } }

/-- An achievement with identifier 7 that rewards 120 XP and 3 cups. -/
def sampleAchievement : Achievement.Document :=
  { id := 7, xpReward := 120, cupsReward := 3, totalUnlocked := 0 }

end GamificationController

namespace UserProgress

/-! ## Lemmas on the level-up loop -/

theorem growThreshold_ge {t : Int} (h : 0 < t) : t ≤ growThreshold t := by
  unfold growThreshold; omega

theorem growThreshold_pos {t : Int} (h : 0 < t) : 0 < growThreshold t := by
  unfold growThreshold; omega

theorem growThreshold_gt {t : Int} (h : 2 ≤ t) : t < growThreshold t := by
  unfold growThreshold; omega

theorem thresholdAfter_succ (t : Int) (k : Nat) :
    thresholdAfter t (k + 1) = thresholdAfter (growThreshold t) k := by
  simp [thresholdAfter, Function.iterate_succ_apply]

theorem thresholdAfter_succ_outer (t : Int) (k : Nat) :
    thresholdAfter t (k + 1) = growThreshold (thresholdAfter t k) := by
  simp [thresholdAfter, Function.iterate_succ_apply']

theorem consumedBy_succ (t : Int) (k : Nat) :
    consumedBy t (k + 1) = t + consumedBy (growThreshold t) k := by
  unfold consumedBy
  rw [Finset.sum_range_succ']
  simp only [thresholdAfter_succ]
  simp [thresholdAfter, add_comm]

theorem sameOutsideLevel_refl (s : Account) : sameOutsideLevel s s := by
  simp [sameOutsideLevel]

theorem sameOutsideLevel_step {s s' : Account} (h : sameOutsideLevel (levelUpStep s) s') :
    sameOutsideLevel s s' := by
  simpa [sameOutsideLevel, levelUpStep] using h

/-- What a finished run of the loop has done: `k` iterations, each one enabled. -/
theorem levelUpLoop_spec : ∀ (fuel : Nat) (s s' : Account),
    levelUpLoop fuel s = some s' →
    ∃ k : Nat, s'.level = s.level + k ∧
      s'.xpToNextLevel = thresholdAfter s.xpToNextLevel k ∧
      s.xp = s'.xp + consumedBy s.xpToNextLevel k ∧
      s'.xp < s'.xpToNextLevel ∧
      (∀ j : Nat, j < k → thresholdAfter s.xpToNextLevel j ≤ s.xp - consumedBy s.xpToNextLevel j) ∧
      sameOutsideLevel s s' := by
  intro fuel
  induction fuel with
  | zero => intro s s' h; simp [levelUpLoop] at h
  | succ n ih =>
    intro s s' h
    unfold levelUpLoop at h
    by_cases hc : s.xpToNextLevel ≤ s.xp
    · rw [if_pos hc] at h
      obtain ⟨k, hl, ht, hx, hlt, hall, hsame⟩ := ih _ _ h
      refine ⟨k + 1, ?_, ?_, ?_, hlt, ?_, sameOutsideLevel_step hsame⟩
      · simp only [levelUpStep] at hl
        rw [hl]; push_cast; ring
      · rw [ht, thresholdAfter_succ]; rfl
      · rw [consumedBy_succ]
        simp only [levelUpStep] at hx
        have : consumedBy (growThreshold s.xpToNextLevel) k
            = consumedBy (levelUpStep s).xpToNextLevel k := rfl
        omega
      · intro j hj
        cases j with
        | zero => simpa [thresholdAfter, consumedBy] using hc
        | succ j =>
          have hj' := hall j (by omega)
          rw [thresholdAfter_succ, consumedBy_succ]
          simp only [levelUpStep] at hj'
          omega
    · rw [if_neg hc] at h
      cases h
      refine ⟨0, by simp, by simp [thresholdAfter], by simp [consumedBy], by omega, ?_,
        sameOutsideLevel_refl s⟩
      intro j hj; omega

/-- The loop ends within `xp + 1` evaluations of its condition when the threshold
is positive. -/
theorem levelUpLoop_terminates : ∀ (fuel : Nat) (s : Account),
    0 < s.xpToNextLevel → s.xp.toNat < fuel → ∃ s', levelUpLoop fuel s = some s' := by
  intro fuel
  induction fuel with
  | zero => intro s _ h; omega
  | succ n ih =>
    intro s hT hf
    unfold levelUpLoop
    by_cases hc : s.xpToNextLevel ≤ s.xp
    · rw [if_pos hc]
      apply ih
      · exact growThreshold_pos hT
      · simp only [levelUpStep]; omega
    · rw [if_neg hc]; exact ⟨s, rfl⟩

/-- More fuel does not change the result of a finished run. -/
theorem levelUpLoop_mono : ∀ (fuel : Nat) (s s' : Account),
    levelUpLoop fuel s = some s' → ∀ m, fuel ≤ m → levelUpLoop m s = some s' := by
  intro fuel
  induction fuel with
  | zero => intro s s' h; simp [levelUpLoop] at h
  | succ n ih =>
    intro s s' h m hm
    obtain ⟨m', rfl⟩ : ∃ m', m = m' + 1 := ⟨m - 1, by omega⟩
    unfold levelUpLoop at h ⊢
    by_cases hc : s.xpToNextLevel ≤ s.xp
    · rw [if_pos hc] at h ⊢
      exact ih _ _ h m' (by omega)
    · rw [if_neg hc] at h ⊢
      exact h

/-- A non-negative balance stays non-negative through the loop. -/
theorem levelUpLoop_xp_nonneg : ∀ (fuel : Nat) (s s' : Account),
    levelUpLoop fuel s = some s' → 0 ≤ s.xp → 0 ≤ s'.xp := by
  intro fuel
  induction fuel with
  | zero => intro s s' h; simp [levelUpLoop] at h
  | succ n ih =>
    intro s s' h hx
    unfold levelUpLoop at h
    by_cases hc : s.xpToNextLevel ≤ s.xp
    · rw [if_pos hc] at h
      exact ih _ _ h (by simp only [levelUpStep]; omega)
    · rw [if_neg hc] at h
      cases h; exact hx

/-- The loop applied to a normalized account evaluates its condition once. -/
theorem levelUpLoop_of_lt (fuel : Nat) (s : Account) (h : s.xp < s.xpToNextLevel) :
    levelUpLoop (fuel + 1) s = some s := by
  unfold levelUpLoop
  rw [if_neg (by omega)]

/-- Result of `addXP` with enough fuel, for a positive threshold. -/
theorem addXP_returns (s : Account) (amount : Int) (hT : 0 < s.xpToNextLevel) :
    ∃ s', ∀ fuel : Nat, (s.xp + amount).toNat < fuel → addXP fuel amount s = some s' := by
  obtain ⟨s', hs'⟩ := levelUpLoop_terminates ((s.xp + amount).toNat + 1) (creditXP amount s)
    (by simpa [creditXP] using hT) (by simp [creditXP])
  exact ⟨s', fun fuel hf => levelUpLoop_mono _ _ _ hs' fuel (by omega)⟩

/-! ## Claims on `addXP` and `addCups` -/

/-- C1: on an account with `xp ≥ 0` and `xpToNextLevel > 0`, a grant of a positive
amount returns an account with `0 ≤ xp < xpToNextLevel` whose level is at least
the level before the call. -/
theorem addXP_normalizes (s : Account) (amount : Int) (fuel : Nat)
    (hxp : 0 ≤ s.xp) (hT : 0 < s.xpToNextLevel) (ha : 0 < amount)
    (hfuel : (s.xp + amount).toNat < fuel) :
    ∃ s', addXP fuel amount s = some s' ∧
      0 ≤ s'.xp ∧ s'.xp < s'.xpToNextLevel ∧ s.level ≤ s'.level := by
  obtain ⟨s', hs'⟩ := addXP_returns s amount hT
  have hrun := hs' fuel hfuel
  refine ⟨s', hrun, ?_, ?_, ?_⟩
  · exact levelUpLoop_xp_nonneg _ _ _ hrun (by simp only [creditXP]; omega)
  · obtain ⟨k, -, -, -, hlt, -, -⟩ := levelUpLoop_spec _ _ _ hrun
    exact hlt
  · obtain ⟨k, hl, -, -, -, -, -⟩ := levelUpLoop_spec _ _ _ hrun
    simp only [creditXP] at hl
    omega

theorem addXP_normalizes_witness :
    ∃ s', addXP 121 120 (newAccount 0 0) = some s' ∧
      0 ≤ s'.xp ∧ s'.xp < s'.xpToNextLevel ∧ (newAccount 0 0).level ≤ s'.level :=
  addXP_normalizes (newAccount 0 0) 120 121 (by decide) (by decide) (by decide) (by decide)

/-- In exact arithmetic `addXP` is the reference level-up loop. For a positive
threshold `T` and a positive amount there is a number `k` of level-ups with
`level' = level + k`,
`xpToNextLevel' = f^k(T)` and `xp + amount = xp' + T + f(T) + ... + f^(k-1)(T)`,
where `f = growThreshold` and `k` is the first index at which the remainder is
below `f^k(T)`. On `{level 1, xp 0, xpToNextLevel 100}` a grant of 120 gives
`{2, 20, 150}` and a further grant of 150 gives `{3, 20, 225}`. -/
theorem addXP_reference_loop :
    (∀ (s : Account) (amount : Int) (fuel : Nat),
      0 < s.xpToNextLevel → 0 < amount → (s.xp + amount).toNat < fuel →
      ∃ (s' : Account) (k : Nat), addXP fuel amount s = some s' ∧
        s'.level = s.level + k ∧
        s'.xpToNextLevel = growThreshold^[k] s.xpToNextLevel ∧
        s.xp + amount = s'.xp + ∑ i in Finset.range k, growThreshold^[i] s.xpToNextLevel ∧
        s'.xp < growThreshold^[k] s.xpToNextLevel ∧
        ∀ j : Nat, j < k → growThreshold^[j] s.xpToNextLevel
          ≤ s.xp + amount - ∑ i in Finset.range j, growThreshold^[i] s.xpToNextLevel) ∧
    (∀ (s : Account) (fuel : Nat), s.level = 1 → s.xp = 0 → s.xpToNextLevel = 100 →
      2 ≤ fuel →
      ∃ s₁ s₂ : Account, addXP fuel 120 s = some s₁ ∧
        s₁.level = 2 ∧ s₁.xp = 20 ∧ s₁.xpToNextLevel = 150 ∧
        addXP fuel 150 s₁ = some s₂ ∧
        s₂.level = 3 ∧ s₂.xp = 20 ∧ s₂.xpToNextLevel = 225) := by
  constructor
  · intro s amount fuel hT _ hfuel
    obtain ⟨s', hs'⟩ := addXP_returns s amount hT
    have hrun := hs' fuel hfuel
    obtain ⟨k, hl, ht, hx, hlt, hall, -⟩ := levelUpLoop_spec _ _ _ hrun
    simp only [creditXP] at hl ht hx hall
    exact ⟨s', k, hrun, hl, ht, hx, by rw [ht] at hlt; exact hlt, hall⟩
  · intro s fuel h1 h2 h3 hfuel
    obtain ⟨m, rfl⟩ : ∃ m, fuel = m + 2 := ⟨fuel - 2, by omega⟩
    refine ⟨levelUpStep (creditXP 120 s), levelUpStep (creditXP 150 (levelUpStep (creditXP 120 s))),
      ?_, ?_, ?_, ?_, ?_, ?_, ?_, ?_⟩
    · unfold addXP
      rw [levelUpLoop, if_pos (by simp [creditXP, h2, h3])]
      exact levelUpLoop_of_lt m _ (by simp [levelUpStep, creditXP, h2, h3, growThreshold])
    · simp [levelUpStep, creditXP, h1]
    · simp [levelUpStep, creditXP, h2, h3]
    · simp [levelUpStep, creditXP, h3, growThreshold]
    · unfold addXP
      rw [levelUpLoop, if_pos (by simp [levelUpStep, creditXP, h2, h3, growThreshold])]
      exact levelUpLoop_of_lt m _ (by simp [levelUpStep, creditXP, h2, h3, growThreshold])
    · simp [levelUpStep, creditXP, h1]
    · simp [levelUpStep, creditXP, h2, h3, growThreshold]
    · simp [levelUpStep, creditXP, h3, growThreshold]

/-- C3 (counterexample): at level 1 with `xp = 0` and threshold 5 the grant
`5 + floor(1.5 * 5) + 10 = 22` cascades through three level-ups and ends at
level 4 with `xp = 0`, not at level 3 with `xp = 10`. -/
theorem addXP_cascade_counterexample :
    (accountWithThreshold 5).xp = 0 ∧ 0 < (accountWithThreshold 5).xpToNextLevel ∧
    (addXP 23 ((accountWithThreshold 5).xpToNextLevel
        + growThreshold (accountWithThreshold 5).xpToNextLevel + 10)
      (accountWithThreshold 5)).map (fun r => (r.level, r.xp, r.xpToNextLevel))
      = some (4, 0, 15) ∧
    ¬ ∃ s', addXP 23 ((accountWithThreshold 5).xpToNextLevel
        + growThreshold (accountWithThreshold 5).xpToNextLevel + 10)
      (accountWithThreshold 5) = some s' ∧
      s'.level = (accountWithThreshold 5).level + 2 ∧ s'.xp = 10 := by
  refine ⟨by decide, by decide, by decide, ?_⟩
  rintro ⟨s', h, hl, -⟩
  have h4 : addXP 23 ((accountWithThreshold 5).xpToNextLevel
        + growThreshold (accountWithThreshold 5).xpToNextLevel + 10)
      (accountWithThreshold 5)
      = some { accountWithThreshold 5 with
          level := 4, xp := 0, xpToNextLevel := 15, totalXpEarned := 22,
          todayProgress := { (accountWithThreshold 5).todayProgress with xpEarned := 22 } } := by
    decide
  rw [h4] at h
  cases h
  revert hl
  decide

/-- C3 (amended): on an account at level `L` with `xp = 0` and threshold `T > 0`, the
grant `T + floor(1.5 * T) + 10` ends at level `L + 2` with `xp = 10` exactly when
`T ≥ 6`, that is when `10 < floor(1.5 * floor(1.5 * T))`. -/
theorem addXP_cascade_two (s : Account) (fuel : Nat)
    (hxp : s.xp = 0) (hT : 0 < s.xpToNextLevel) (hfuel : 3 ≤ fuel) :
    (∃ s', addXP fuel (s.xpToNextLevel + growThreshold s.xpToNextLevel + 10) s = some s' ∧
      s'.level = s.level + 2 ∧ s'.xp = 10) ↔ 6 ≤ s.xpToNextLevel := by
  constructor
  · rintro ⟨s', hrun, hl, hx⟩
    obtain ⟨k, hl', ht, -, hlt, -, -⟩ := levelUpLoop_spec _ _ _ hrun
    simp only [creditXP] at hl' ht
    have hk : k = 2 := by omega
    subst hk
    rw [ht, hx] at hlt
    simp only [thresholdAfter, Function.iterate_succ, Function.iterate_zero,
      Function.comp_apply, id_eq] at hlt
    unfold growThreshold at hlt
    omega
  · intro h6
    obtain ⟨m, rfl⟩ : ∃ m, fuel = m + 3 := ⟨fuel - 3, by omega⟩
    have hg : s.xpToNextLevel ≤ growThreshold s.xpToNextLevel := growThreshold_ge hT
    have hgg : 10 < growThreshold (growThreshold s.xpToNextLevel) := by
      unfold growThreshold; omega
    refine ⟨levelUpStep (levelUpStep
      (creditXP (s.xpToNextLevel + growThreshold s.xpToNextLevel + 10) s)), ?_, ?_, ?_⟩
    · unfold addXP
      rw [levelUpLoop, if_pos (by simp only [creditXP]; omega)]
      rw [levelUpLoop, if_pos (by simp only [levelUpStep, creditXP]; omega)]
      exact levelUpLoop_of_lt m _ (by simp only [levelUpStep, creditXP]; omega)
    · simp only [levelUpStep, creditXP]; omega
    · simp only [levelUpStep, creditXP]; omega

theorem addXP_cascade_two_witness :
    ∃ s', addXP 3 ((accountWithThreshold 100).xpToNextLevel
        + growThreshold (accountWithThreshold 100).xpToNextLevel + 10)
      (accountWithThreshold 100) = some s' ∧
      s'.level = (accountWithThreshold 100).level + 2 ∧ s'.xp = 10 :=
  (addXP_cascade_two (accountWithThreshold 100) 3 (by decide) (by decide) (by decide)).2
    (by decide)

/-- C5 (counterexample): on an account holding 50 XP and 5 cups, `addXP(-5)` is
carried out and lowers `xp` and `totalXpEarned` to 45, `addCups(-3)` lowers `cups`
and `totalCupsEarned` to 2, both results pass the schema validators, and a grant of
0 returns the account as it was. -/
theorem grant_nonpositive_counterexample :
    (addXP 1 (-5) fundedAccount).map
        (fun r => (r.xp, r.totalXpEarned, r.todayProgress.xpEarned, schemaValid r))
      = some (45, 45, -5, true) ∧
    fundedAccount.xp = 50 ∧ fundedAccount.totalXpEarned = 50 ∧
    ((addCups (-3) fundedAccount).cups, (addCups (-3) fundedAccount).totalCupsEarned,
        schemaValid (addCups (-3) fundedAccount)) = (2, 2, true) ∧
    fundedAccount.cups = 5 ∧ fundedAccount.totalCupsEarned = 5 ∧
    addXP 1 0 fundedAccount = some fundedAccount ∧
    addCups 0 fundedAccount = fundedAccount := by
  decide

/-- C5 (amended): `addXP` and `addCups` accept every amount `≤ 0`. On an account
with `xp < xpToNextLevel`, `addXP(amount)` returns with `amount` added to `xp`,
`totalXpEarned` and `todayProgress.xpEarned` and with `level` and `xpToNextLevel`
as before; `addCups(amount)` adds `amount` to `cups` and `totalCupsEarned`. The
schema validators fail on the result only if `xp`, respectively `cups`, has become
negative. -/
theorem grant_nonpositive_unchecked (s : Account) (amount : Int) (fuel : Nat)
    (ha : amount ≤ 0) (hn : s.xp < s.xpToNextLevel) (hfuel : 0 < fuel) :
    (∃ s', addXP fuel amount s = some s' ∧
      s'.xp = s.xp + amount ∧ s'.totalXpEarned = s.totalXpEarned + amount ∧
      s'.todayProgress.xpEarned = s.todayProgress.xpEarned + amount ∧
      s'.level = s.level ∧ s'.xpToNextLevel = s.xpToNextLevel ∧
      (schemaValid s = true → (schemaValid s' = true ↔ 0 ≤ s.xp + amount))) ∧
    (addCups amount s).cups = s.cups + amount ∧
    (addCups amount s).totalCupsEarned = s.totalCupsEarned + amount ∧
    (schemaValid s = true → (schemaValid (addCups amount s) = true ↔ 0 ≤ s.cups + amount)) := by
  obtain ⟨m, rfl⟩ : ∃ m, fuel = m + 1 := ⟨fuel - 1, by omega⟩
  refine ⟨⟨creditXP amount s, ?_, rfl, rfl, rfl, rfl, rfl, ?_⟩, rfl, rfl, ?_⟩
  · exact levelUpLoop_of_lt m _ (by simp only [creditXP]; omega)
  · intro hv
    simp only [schemaValid, Bool.and_eq_true, decide_eq_true_eq] at hv
    simp only [schemaValid, creditXP, Bool.and_eq_true, decide_eq_true_eq]
    tauto
  · intro hv
    simp only [schemaValid, Bool.and_eq_true, decide_eq_true_eq] at hv
    simp only [schemaValid, addCups, Bool.and_eq_true, decide_eq_true_eq]
    tauto

theorem grant_nonpositive_unchecked_witness :
    (∃ s', addXP 1 (-5) fundedAccount = some s' ∧
      s'.xp = fundedAccount.xp + (-5) ∧
      s'.totalXpEarned = fundedAccount.totalXpEarned + (-5) ∧
      s'.todayProgress.xpEarned = fundedAccount.todayProgress.xpEarned + (-5) ∧
      s'.level = fundedAccount.level ∧ s'.xpToNextLevel = fundedAccount.xpToNextLevel ∧
      (schemaValid fundedAccount = true →
        (schemaValid s' = true ↔ 0 ≤ fundedAccount.xp + (-5)))) ∧
    (addCups (-5) fundedAccount).cups = fundedAccount.cups + (-5) ∧
    (addCups (-5) fundedAccount).totalCupsEarned = fundedAccount.totalCupsEarned + (-5) ∧
    (schemaValid fundedAccount = true →
      (schemaValid (addCups (-5) fundedAccount) = true ↔ 0 ≤ fundedAccount.cups + (-5))) :=
  grant_nonpositive_unchecked fundedAccount (-5) 1 (by decide) (by decide) (by decide)

/-! ## Thresholds of reachable accounts -/

theorem thresholdAfter_hundred_ge (n : Nat) : 100 ≤ thresholdAfter 100 n := by
  induction n with
  | zero => simp [thresholdAfter]
  | succ n ih =>
    rw [thresholdAfter_succ_outer]
    have := growThreshold_ge (t := thresholdAfter 100 n) (by omega)
    omega

theorem thresholdAfter_hundred_strictMono : StrictMono (thresholdAfter 100) := by
  apply strictMono_nat_of_lt_succ
  intro n
  rw [thresholdAfter_succ_outer]
  exact growThreshold_gt (by have := thresholdAfter_hundred_ge n; omega)

/-! ## Claims on `updateStreak` -/

theorem msPerDay_eq : msPerDay = 86400000 := by decide

/-- The day difference computed by `updateStreak` is the difference of the
calendar days. -/
theorem dayDiff_eq_calendarDay (zone now last : Int) :
    dayDiff zone now last = calendarDay zone now - calendarDay zone last := by
  unfold dayDiff startOfDay calendarDay
  rw [msPerDay_eq]
  omega

/-- C9 (the code at the failing input): the first `updateStreak` call on a newly
created account, which satisfies `currentStreak ≤ longestStreak`, returns
`currentStreak = 1` and `longestStreak = 0`. -/
theorem updateStreak_first_call (zone now created : Int) (userId : Nat) :
    (newAccount userId created).currentStreak ≤ (newAccount userId created).longestStreak ∧
    (updateStreak zone now (newAccount userId created)).currentStreak = 1 ∧
    (updateStreak zone now (newAccount userId created)).longestStreak = 0 ∧
    ¬ (updateStreak zone now (newAccount userId created)).currentStreak
        ≤ (updateStreak zone now (newAccount userId created)).longestStreak := by
  simp [updateStreak, newAccount]

/-- C10 (the code on the scenario): from a newly created account, calls on the
days `d`, `d + 1`, `d + 2` and `d + 9` give the pairs
`(currentStreak, longestStreak)` = `(1, 0)`, `(2, 2)`, `(3, 3)` and `(1, 3)`. -/
theorem updateStreak_scenario (zone t₁ t₂ t₃ t₄ created : Int) (userId : Nat)
    (h₂ : calendarDay zone t₂ = calendarDay zone t₁ + 1)
    (h₃ : calendarDay zone t₃ = calendarDay zone t₁ + 2)
    (h₄ : calendarDay zone t₄ = calendarDay zone t₁ + 9) :
    ((updateStreak zone t₁ (newAccount userId created)).currentStreak,
      (updateStreak zone t₁ (newAccount userId created)).longestStreak) = (1, 0) ∧
    ((updateStreak zone t₂ (updateStreak zone t₁ (newAccount userId created))).currentStreak,
      (updateStreak zone t₂ (updateStreak zone t₁ (newAccount userId created))).longestStreak)
      = (2, 2) ∧
    ((updateStreak zone t₃ (updateStreak zone t₂
        (updateStreak zone t₁ (newAccount userId created)))).currentStreak,
      (updateStreak zone t₃ (updateStreak zone t₂
        (updateStreak zone t₁ (newAccount userId created)))).longestStreak) = (3, 3) ∧
    ((updateStreak zone t₄ (updateStreak zone t₃ (updateStreak zone t₂
        (updateStreak zone t₁ (newAccount userId created))))).currentStreak,
      (updateStreak zone t₄ (updateStreak zone t₃ (updateStreak zone t₂
        (updateStreak zone t₁ (newAccount userId created))))).longestStreak) = (1, 3) := by
  have d₂ : dayDiff zone t₂ t₁ = 1 := by rw [dayDiff_eq_calendarDay]; omega
  have d₃ : dayDiff zone t₃ t₂ = 1 := by rw [dayDiff_eq_calendarDay]; omega
  have d₄ : dayDiff zone t₄ t₃ = 7 := by rw [dayDiff_eq_calendarDay]; omega
  simp [updateStreak, newAccount, d₂, d₃, d₄]

theorem updateStreak_scenario_witness :
    ((updateStreak 0 0 (newAccount 0 0)).currentStreak,
      (updateStreak 0 0 (newAccount 0 0)).longestStreak) = (1, 0) ∧
    ((updateStreak 0 86400000 (updateStreak 0 0 (newAccount 0 0))).currentStreak,
      (updateStreak 0 86400000 (updateStreak 0 0 (newAccount 0 0))).longestStreak)
      = (2, 2) ∧
    ((updateStreak 0 172800000 (updateStreak 0 86400000
        (updateStreak 0 0 (newAccount 0 0)))).currentStreak,
      (updateStreak 0 172800000 (updateStreak 0 86400000
        (updateStreak 0 0 (newAccount 0 0)))).longestStreak) = (3, 3) ∧
    ((updateStreak 0 777600000 (updateStreak 0 172800000 (updateStreak 0 86400000
        (updateStreak 0 0 (newAccount 0 0))))).currentStreak,
      (updateStreak 0 777600000 (updateStreak 0 172800000 (updateStreak 0 86400000
        (updateStreak 0 0 (newAccount 0 0))))).longestStreak) = (1, 3) :=
  updateStreak_scenario 0 0 86400000 172800000 777600000 0 0
    (by decide) (by decide) (by decide)

/-- Start-of-day timestamps are ordered as the calendar days are. -/
theorem startOfDay_lt_iff (zone a b : Int) :
    startOfDay zone a < startOfDay zone b ↔ calendarDay zone a < calendarDay zone b := by
  unfold startOfDay calendarDay
  rw [msPerDay_eq]
  omega

/-- After any call the recorded last activity lies on the day of the call. -/
theorem updateStreak_lastActivity_day (zone now : Int) (s : Account) :
    ∃ l, (updateStreak zone now s).lastActivityDate = some l ∧
      calendarDay zone l = calendarDay zone now := by
  unfold updateStreak
  cases hl : s.lastActivityDate with
  | none => exact ⟨now, rfl, rfl⟩
  | some last =>
    simp only
    by_cases h0 : dayDiff zone now last = 0
    · rw [if_pos h0]
      refine ⟨last, hl, ?_⟩
      rw [dayDiff_eq_calendarDay] at h0
      omega
    · rw [if_neg h0]
      by_cases h1 : dayDiff zone now last = 1
      · rw [if_pos h1]; exact ⟨now, rfl, rfl⟩
      · rw [if_neg h1]; exact ⟨now, rfl, rfl⟩

/-- A call on the day of the recorded last activity returns the account as it is. -/
theorem updateStreak_of_same_day (zone now last : Int) (s : Account)
    (hlast : s.lastActivityDate = some last)
    (hday : calendarDay zone now = calendarDay zone last) : updateStreak zone now s = s := by
  have d : dayDiff zone now last = 0 := by rw [dayDiff_eq_calendarDay]; omega
  simp [updateStreak, hlast, d]

/-- In a zone whose offset never changes: when `lastActivityDate` is exactly one
calendar day before the activity date, `updateStreak` sets `currentStreak` to `currentStreak + 1`, `longestStreak` to
`max longestStreak (currentStreak + 1)` and `lastActivityDate` to the activity
date. -/
theorem updateStreak_consecutive_day (zone now last : Int) (s : Account)
    (hlast : s.lastActivityDate = some last)
    (hday : calendarDay zone now = calendarDay zone last + 1) :
    (updateStreak zone now s).currentStreak = s.currentStreak + 1 ∧
    (updateStreak zone now s).longestStreak = max s.longestStreak (s.currentStreak + 1) ∧
    (updateStreak zone now s).lastActivityDate = some now := by
  have d : dayDiff zone now last = 1 := by rw [dayDiff_eq_calendarDay]; omega
  refine ⟨?_, ?_, ?_⟩
  · simp [updateStreak, hlast, d]
  · simp only [updateStreak, hlast, d]
    simp only [one_ne_zero, if_false, if_true]
    by_cases h : s.longestStreak < s.currentStreak + 1
    · rw [if_pos h]; omega
    · rw [if_neg h]; omega
  · simp [updateStreak, hlast, d]

/-- A call whose day difference is neither 0 nor 1 takes the branch that resets the
streak. -/
theorem updateStreak_of_broken (zone now last : Int) (s : Account)
    (hlast : s.lastActivityDate = some last)
    (h0 : dayDiff zone now last ≠ 0) (h1 : dayDiff zone now last ≠ 1) :
    updateStreak zone now s = { s with currentStreak := 1, lastActivityDate := some now } := by
  simp [updateStreak, hlast, h0, h1]

/-- In a zone whose offset never changes: when `lastActivityDate` is more than one
calendar day before the activity date, `updateStreak` sets `currentStreak` to 1, leaves `longestStreak` unchanged and
sets `lastActivityDate` to the activity date; two accounts that differ only in the
previous `currentStreak` and in how far back the last activity lies get the same
result. -/
theorem updateStreak_after_gap :
    (∀ (zone now last : Int) (s : Account), s.lastActivityDate = some last →
      calendarDay zone last + 1 < calendarDay zone now →
      (updateStreak zone now s).currentStreak = 1 ∧
      (updateStreak zone now s).longestStreak = s.longestStreak ∧
      (updateStreak zone now s).lastActivityDate = some now) ∧
    (∀ (zone now l₁ l₂ c₁ c₂ : Int) (s : Account),
      calendarDay zone l₁ + 1 < calendarDay zone now →
      calendarDay zone l₂ + 1 < calendarDay zone now →
      updateStreak zone now { s with currentStreak := c₁, lastActivityDate := some l₁ }
        = updateStreak zone now { s with currentStreak := c₂, lastActivityDate := some l₂ }) := by
  constructor
  · intro zone now last s hlast hgap
    rw [updateStreak_of_broken zone now last s hlast
      (by rw [dayDiff_eq_calendarDay]; omega) (by rw [dayDiff_eq_calendarDay]; omega)]
    exact ⟨rfl, rfl, rfl⟩
  · intro zone now l₁ l₂ c₁ c₂ s h₁ h₂
    rw [updateStreak_of_broken zone now l₁ _ rfl
      (by rw [dayDiff_eq_calendarDay]; omega) (by rw [dayDiff_eq_calendarDay]; omega)]
    rw [updateStreak_of_broken zone now l₂ _ rfl
      (by rw [dayDiff_eq_calendarDay]; omega) (by rw [dayDiff_eq_calendarDay]; omega)]

/-- C13: a call on the calendar day of `lastActivityDate` returns the account
unchanged, and after one call on a day any further calls on that day leave the
result of the first call as it is. -/
theorem updateStreak_same_day :
    (∀ (zone now last : Int) (s : Account), s.lastActivityDate = some last →
      calendarDay zone now = calendarDay zone last → updateStreak zone now s = s) ∧
    (∀ (zone now : Int) (s : Account) (later : List Int),
      (∀ t ∈ later, calendarDay zone t = calendarDay zone now) →
      later.foldl (fun acc t => updateStreak zone t acc) (updateStreak zone now s)
        = updateStreak zone now s) := by
  refine ⟨updateStreak_of_same_day, ?_⟩
  intro zone now s later
  induction later with
  | nil => intro _; rfl
  | cons t ts ih =>
    intro hall
    obtain ⟨l, hl, hday⟩ := updateStreak_lastActivity_day zone now s
    have ht : calendarDay zone t = calendarDay zone now := hall t (by simp)
    rw [List.foldl_cons, updateStreak_of_same_day zone t l _ hl (by omega)]
    exact ih (fun u hu => hall u (by simp [hu]))

theorem updateStreak_same_day_witness :
    updateStreak 0 (5 * 86400000 + 7000) streakAccount = streakAccount :=
  updateStreak_same_day.1 0 (5 * 86400000 + 7000) (5 * 86400000) streakAccount rfl
    (by decide)

/-- C14 (counterexample): on an account with a streak of 3 whose last activity is on
day 5, a call on day 2 is carried out: it returns `currentStreak = 1` and
`lastActivityDate` on day 2 instead of leaving the account as it was. -/
theorem updateStreak_out_of_order_counterexample :
    streakAccount.lastActivityDate = some (5 * 86400000) ∧
    calendarDay 0 (2 * 86400000) < calendarDay 0 (5 * 86400000) ∧
    streakAccount.currentStreak = 3 ∧
    (updateStreak 0 (2 * 86400000) streakAccount).currentStreak = 1 ∧
    (updateStreak 0 (2 * 86400000) streakAccount).lastActivityDate = some (2 * 86400000) ∧
    updateStreak 0 (2 * 86400000) streakAccount ≠ streakAccount := by
  decide

/-- C14 (amended): when `lastActivityDate` lies on a later calendar day than the
activity date, `updateStreak` raises no error and takes the broken-streak branch:
`currentStreak` becomes 1, `longestStreak` is unchanged and `lastActivityDate` is
set to the activity date. -/
theorem updateStreak_out_of_order (zone now last : Int) (s : Account)
    (hlast : s.lastActivityDate = some last)
    (hday : calendarDay zone now < calendarDay zone last) :
    (updateStreak zone now s).currentStreak = 1 ∧
    (updateStreak zone now s).longestStreak = s.longestStreak ∧
    (updateStreak zone now s).lastActivityDate = some now := by
  rw [updateStreak_of_broken zone now last s hlast
    (by rw [dayDiff_eq_calendarDay]; omega) (by rw [dayDiff_eq_calendarDay]; omega)]
  exact ⟨rfl, rfl, rfl⟩

theorem updateStreak_out_of_order_witness :
    (updateStreak 0 (2 * 86400000) streakAccount).currentStreak = 1 ∧
    (updateStreak 0 (2 * 86400000) streakAccount).longestStreak
      = streakAccount.longestStreak ∧
    (updateStreak 0 (2 * 86400000) streakAccount).lastActivityDate = some (2 * 86400000) :=
  updateStreak_out_of_order 0 (2 * 86400000) (5 * 86400000) streakAccount rfl (by decide)

/-! ## Claims on `resetDailyProgress` and `unlockAchievement` -/

/-- C15: `resetDailyProgress` zeroes the three counters of `todayProgress` and sets
`lastResetDate` to the time of the call exactly when the calendar day of the call
is strictly after the day of `lastResetDate`; otherwise it returns the account
unchanged, so a second call on the same day changes nothing. In both cases `level`,
`xp`, `xpToNextLevel`, the totals, `cups`, the streak fields and `achievements` are
unchanged. -/
theorem resetDailyProgress_effect (zone now : Int) (s : Account) :
    (calendarDay zone s.todayProgress.lastResetDate < calendarDay zone now →
      (resetDailyProgress zone now s).todayProgress
        = { xpEarned := 0, minutesStudied := 0, lessonsCompleted := 0, lastResetDate := now }) ∧
    (¬ calendarDay zone s.todayProgress.lastResetDate < calendarDay zone now →
      resetDailyProgress zone now s = s) ∧
    (∀ later : Int, calendarDay zone later = calendarDay zone now →
      resetDailyProgress zone later (resetDailyProgress zone now s)
        = resetDailyProgress zone now s) ∧
    ((resetDailyProgress zone now s).level = s.level ∧
      (resetDailyProgress zone now s).xp = s.xp ∧
      (resetDailyProgress zone now s).xpToNextLevel = s.xpToNextLevel ∧
      (resetDailyProgress zone now s).totalXpEarned = s.totalXpEarned ∧
      (resetDailyProgress zone now s).cups = s.cups ∧
      (resetDailyProgress zone now s).totalCupsEarned = s.totalCupsEarned ∧
      (resetDailyProgress zone now s).currentStreak = s.currentStreak ∧
      (resetDailyProgress zone now s).longestStreak = s.longestStreak ∧
      (resetDailyProgress zone now s).lastActivityDate = s.lastActivityDate ∧
      (resetDailyProgress zone now s).achievements = s.achievements) := by
  refine ⟨?_, ?_, ?_, ?_⟩
  · intro h
    unfold resetDailyProgress
    rw [if_pos ((startOfDay_lt_iff _ _ _).2 h)]
  · intro h
    unfold resetDailyProgress
    rw [if_neg (fun h' => h ((startOfDay_lt_iff _ _ _).1 h'))]
  · intro later hlater
    by_cases h : calendarDay zone s.todayProgress.lastResetDate < calendarDay zone now
    · have e : resetDailyProgress zone now s = { s with todayProgress :=
          { xpEarned := 0, minutesStudied := 0, lessonsCompleted := 0, lastResetDate := now } } := by
        unfold resetDailyProgress
        rw [if_pos ((startOfDay_lt_iff _ _ _).2 h)]
      rw [e]
      unfold resetDailyProgress
      rw [if_neg]
      rw [startOfDay_lt_iff]
      simp only
      omega
    · have e : resetDailyProgress zone now s = s := by
        unfold resetDailyProgress
        rw [if_neg (fun h' => h ((startOfDay_lt_iff _ _ _).1 h'))]
      rw [e]
      unfold resetDailyProgress
      rw [if_neg]
      rw [startOfDay_lt_iff]
      omega
  · unfold resetDailyProgress
    split_ifs <;> simp

theorem resetDailyProgress_effect_witness :
    (resetDailyProgress 0 (3 * 86400000) (newAccount 0 0)).todayProgress
      = { xpEarned := 0, minutesStudied := 0, lessonsCompleted := 0,
          lastResetDate := 3 * 86400000 } :=
  (resetDailyProgress_effect 0 (3 * 86400000) (newAccount 0 0)).1 (by decide)

end UserProgress

namespace GamificationController

/-- C16 (the code at the failing input): on a newly created account the request to
unlock the achievement 7 (120 XP, 3 cups) answers 200 and records it. A second
request that spells the identifier in lower case answers 400 and changes nothing. A
second request that spells the same identifier in upper case passes the test of
line 208 and the test of the method, answers 200, records a second entry for the
achievement and grants the rewards again: `achievements` holds the identifier
twice, `totalXpEarned = 240`, `cups = 6` and `stats.totalUnlocked = 2`. -/
theorem unlockAchievement_twice :
    (unlockAchievement 200 0 sampleAchievement { value := 7, canonical := true }
        (UserProgress.newAccount 0 0)).map
        (fun r => (r.status, UserProgress.achievementIds r.progress,
          r.progress.totalXpEarned, r.progress.cups, r.achievement.totalUnlocked))
      = some (200, [7], 120, 3, 1) ∧
    ((unlockAchievement 200 0 sampleAchievement { value := 7, canonical := true }
        (UserProgress.newAccount 0 0)).bind
        (fun r => unlockAchievement 200 1 r.achievement { value := 7, canonical := true }
          r.progress)).map
        (fun r => (r.status, UserProgress.achievementIds r.progress,
          r.progress.totalXpEarned, r.progress.cups, r.achievement.totalUnlocked))
      = some (400, [7], 120, 3, 1) ∧
    ((unlockAchievement 200 0 sampleAchievement { value := 7, canonical := true }
        (UserProgress.newAccount 0 0)).bind
        (fun r => unlockAchievement 200 1 r.achievement { value := 7, canonical := false }
          r.progress)).map
        (fun r => (r.status, UserProgress.achievementIds r.progress,
          r.progress.totalXpEarned, r.progress.cups, r.achievement.totalUnlocked))
      = some (200, [7, 7], 240, 6, 2) := by
  refine ⟨?_, ?_, ?_⟩ <;> decide

end GamificationController

namespace UserRoadmapProgress

/-- The membership test of `completeLevel`, on the list of identifiers. -/
theorem any_completed_iff (p : Progress) (id : Nat) :
    p.completedLevels.any (fun l => l.levelId == id) = true ↔ id ∈ completedIds p := by
  simp only [completedIds, List.any_eq_true, List.mem_map, beq_iff_eq]

theorem completeLevel_of_mem {p : Progress} {id : Nat} (now score timeTaken : Int)
    (h : id ∈ completedIds p) : completeLevel now id score timeTaken p = p := by
  unfold completeLevel
  rw [if_pos ((any_completed_iff p id).2 h)]

theorem completeLevel_of_not_mem {p : Progress} {id : Nat} (now score timeTaken : Int)
    (h : id ∉ completedIds p) :
    completeLevel now id score timeTaken p = { p with completedLevels := p.completedLevels ++
      [{ levelId := id, completedAt := now, score := score, timeTaken := timeTaken }] } := by
  unfold completeLevel
  rw [if_neg (fun h' => h ((any_completed_iff p id).1 h'))]

theorem mem_completedIds_completeLevel (p : Progress) (id : Nat) (now score timeTaken : Int) :
    id ∈ completedIds (completeLevel now id score timeTaken p) := by
  by_cases h : id ∈ completedIds p
  · rw [completeLevel_of_mem now score timeTaken h]; exact h
  · rw [completeLevel_of_not_mem now score timeTaken h]; simp [completedIds]

theorem completeLevel_frame (p : Progress) (id : Nat) (now score timeTaken : Int) :
    (completeLevel now id score timeTaken p).unlockedLevels = p.unlockedLevels ∧
    (completeLevel now id score timeTaken p).totalXpEarned = p.totalXpEarned ∧
    (completeLevel now id score timeTaken p).totalCupsEarned = p.totalCupsEarned ∧
    (completeLevel now id score timeTaken p).currentLevel = p.currentLevel ∧
    (completeLevel now id score timeTaken p).levelProgress = p.levelProgress := by
  unfold completeLevel
  split_ifs <;> simp

theorem completeLevel_nodup (now score timeTaken : Int) (levelId : Nat) (p : Progress)
    (hnd : (completedIds p).Nodup) :
    (completedIds (completeLevel now levelId score timeTaken p)).Nodup := by
  by_cases h : levelId ∈ completedIds p
  · rw [completeLevel_of_mem now score timeTaken h]; exact hnd
  · rw [completeLevel_of_not_mem now score timeTaken h]
    simp only [completedIds, List.map_append, List.map_cons, List.map_nil]
    rw [List.nodup_append]
    refine ⟨hnd, List.nodup_singleton _, ?_⟩
    intro a ha hb
    simp only [List.mem_singleton] at hb
    subst hb
    exact h ha

/-- Any sequence of `completeLevel` calls keeps the identifiers pairwise different. -/
theorem foldl_completeLevel_nodup (calls : List (Int × Nat × Int × Int)) :
    ∀ p : Progress, (completedIds p).Nodup →
      (completedIds (calls.foldl
        (fun q c => completeLevel c.1 c.2.1 c.2.2.1 c.2.2.2 q) p)).Nodup := by
  induction calls with
  | nil => intro p h; exact h
  | cons c cs ih =>
    intro p h
    rw [List.foldl_cons]
    exact ih _ (completeLevel_nodup c.1 c.2.2.1 c.2.2.2 c.2.1 p h)

/-- C19: the method `completeLevel` never duplicates a completion record. If the
level is already in `completedLevels` the document is returned unchanged (the first
record keeps its score and time); otherwise exactly one record
`{levelId, completedAt, score, timeTaken}` is appended. Identifiers that were
pairwise different stay pairwise different, the old list is a prefix of the new
one, and nothing but `completedLevels` is written; after any sequence of calls on a
newly created document no `levelId` occurs twice. -/
theorem completeLevel_no_duplicate (now score timeTaken : Int) (levelId : Nat) (p : Progress) :
    (levelId ∈ completedIds p → completeLevel now levelId score timeTaken p = p) ∧
    (levelId ∉ completedIds p →
      (completeLevel now levelId score timeTaken p).completedLevels
        = p.completedLevels ++
          [{ levelId := levelId, completedAt := now, score := score, timeTaken := timeTaken }]) ∧
    ((completedIds p).Nodup →
      (completedIds (completeLevel now levelId score timeTaken p)).Nodup) ∧
    p.completedLevels <+: (completeLevel now levelId score timeTaken p).completedLevels ∧
    (completeLevel now levelId score timeTaken p).unlockedLevels = p.unlockedLevels ∧
    (completeLevel now levelId score timeTaken p).totalXpEarned = p.totalXpEarned ∧
    (completeLevel now levelId score timeTaken p).totalCupsEarned = p.totalCupsEarned ∧
    (∀ (userId courseId : Nat) (calls : List (Int × Nat × Int × Int)),
      (completedIds (calls.foldl (fun q c => completeLevel c.1 c.2.1 c.2.2.1 c.2.2.2 q)
        (create userId courseId))).Nodup) := by
  obtain ⟨f1, f2, f3, -, -⟩ := completeLevel_frame p levelId now score timeTaken
  refine ⟨completeLevel_of_mem now score timeTaken, ?_,
    completeLevel_nodup now score timeTaken levelId p, ?_, f1, f2, f3,
    fun userId courseId calls => foldl_completeLevel_nodup calls _ (by simp [completedIds, create])⟩
  · intro h
    rw [completeLevel_of_not_mem now score timeTaken h]
  · by_cases h : levelId ∈ completedIds p
    · rw [completeLevel_of_mem now score timeTaken h]
    · rw [completeLevel_of_not_mem now score timeTaken h]
      exact List.prefix_append _ _

theorem completeLevel_no_duplicate_witness :
    (completeLevel 0 2 90 10 (create 0 0)).completedLevels
      = (create 0 0).completedLevels ++
        [{ levelId := 2, completedAt := 0, score := 90, timeTaken := 10 }] :=
  (completeLevel_no_duplicate 0 90 10 2 (create 0 0)).2.1 (by decide)

end UserRoadmapProgress

namespace RoadmapController

open UserRoadmapProgress in
/-- The handler `completeLevel` when the user has a roadmap progress document: it
answers 200, lets the model method record the completion, adds the rewards of the
level to the totals of the document and counts one more completion of the level;
the `UserProgress` account is not among the documents it writes. -/
theorem completeLevel_of_progress (now score timeTaken : Int) (w : World) (p : Progress)
    (hp : w.progress = some p) :
    ∃ p', (completeLevel now score timeTaken w).world.progress = some p' ∧
      (completeLevel now score timeTaken w).status = 200 ∧
      p'.completedLevels
        = (UserRoadmapProgress.completeLevel now w.level.id score timeTaken p).completedLevels ∧
      p'.unlockedLevels = p.unlockedLevels ∧
      p'.totalXpEarned = p.totalXpEarned + w.level.rewards.xp ∧
      p'.totalCupsEarned = p.totalCupsEarned + w.level.rewards.cups ∧
      (completeLevel now score timeTaken w).world.level.id = w.level.id ∧
      (completeLevel now score timeTaken w).world.level.rewards = w.level.rewards ∧
      (completeLevel now score timeTaken w).world.level.stats.totalCompleted
        = w.level.stats.totalCompleted + 1 ∧
      (completeLevel now score timeTaken w).world.account = w.account := by
  obtain ⟨f1, f2, f3, -, -⟩ := completeLevel_frame p w.level.id now score timeTaken
  unfold completeLevel
  rw [hp]
  by_cases hx : w.level.rewards.xp = 0 <;> by_cases hc : w.level.rewards.cups = 0 <;>
    simp [hx, hc, f1, f2, f3]

/-- C17 (counterexample): a user who has unlocked level 1 only asks to complete
level 2. The request answers 200, level 2 is recorded in `completedLevels` although
it is not in `unlockedLevels`, and the totals have grown by the rewards 50 and 5. -/
theorem completeLevel_locked_counterexample :
    onlyFirstUnlocked.progress.map
        (fun p => (UserRoadmapProgress.unlockedIds p, UserRoadmapProgress.completedIds p,
          p.totalXpEarned, p.totalCupsEarned)) = some ([1], [], 0, 0) ∧
    onlyFirstUnlocked.level.id = 2 ∧
    (completeLevel 0 90 10 onlyFirstUnlocked).status = 200 ∧
    (completeLevel 0 90 10 onlyFirstUnlocked).world.progress.map
        (fun p => (UserRoadmapProgress.unlockedIds p, UserRoadmapProgress.completedIds p,
          p.totalXpEarned, p.totalCupsEarned)) = some ([1], [2], 50, 5) := by
  decide

open UserRoadmapProgress in
/-- C17 (amended): the handler `completeLevel` does not consult `unlockedLevels`.
For a level that is neither unlocked nor completed the request answers 200,
appends the completion record, adds the rewards of the level to `totalXpEarned` and
`totalCupsEarned` and leaves `unlockedLevels` as it is, so that afterwards the level
is in `completedLevels` and not in `unlockedLevels`. -/
theorem completeLevel_ignores_unlock (now score timeTaken : Int) (w : World) (p : Progress)
    (hp : w.progress = some p) (hlocked : w.level.id ∉ unlockedIds p)
    (hnew : w.level.id ∉ completedIds p) :
    ∃ p', (completeLevel now score timeTaken w).world.progress = some p' ∧
      (completeLevel now score timeTaken w).status = 200 ∧
      p'.completedLevels = p.completedLevels ++
        [{ levelId := w.level.id, completedAt := now, score := score,
           timeTaken := timeTaken }] ∧
      p'.unlockedLevels = p.unlockedLevels ∧
      p'.totalXpEarned = p.totalXpEarned + w.level.rewards.xp ∧
      p'.totalCupsEarned = p.totalCupsEarned + w.level.rewards.cups ∧
      w.level.id ∈ completedIds p' ∧ w.level.id ∉ unlockedIds p' := by
  obtain ⟨p', h1, h2, h3, h4, h5, h6, -⟩ := completeLevel_of_progress now score timeTaken w p hp
  rw [completeLevel_of_not_mem now score timeTaken hnew] at h3
  refine ⟨p', h1, h2, h3, h4, h5, h6, ?_, ?_⟩
  · simp [completedIds, h3]
  · simpa [unlockedIds, h4] using hlocked

theorem completeLevel_ignores_unlock_witness :
    ∃ p', (completeLevel 0 90 10 onlyFirstUnlocked).world.progress = some p' ∧
      (completeLevel 0 90 10 onlyFirstUnlocked).status = 200 ∧
      p'.completedLevels
        = (UserRoadmapProgress.unlockLevel 0 1 (UserRoadmapProgress.create 0 0)).completedLevels
          ++ [{ levelId := onlyFirstUnlocked.level.id, completedAt := 0, score := 90,
                timeTaken := 10 }] ∧
      p'.unlockedLevels
        = (UserRoadmapProgress.unlockLevel 0 1 (UserRoadmapProgress.create 0 0)).unlockedLevels ∧
      p'.totalXpEarned
        = (UserRoadmapProgress.unlockLevel 0 1 (UserRoadmapProgress.create 0 0)).totalXpEarned
          + onlyFirstUnlocked.level.rewards.xp ∧
      p'.totalCupsEarned
        = (UserRoadmapProgress.unlockLevel 0 1 (UserRoadmapProgress.create 0 0)).totalCupsEarned
          + onlyFirstUnlocked.level.rewards.cups ∧
      onlyFirstUnlocked.level.id ∈ UserRoadmapProgress.completedIds p' ∧
      onlyFirstUnlocked.level.id ∉ UserRoadmapProgress.unlockedIds p' :=
  completeLevel_ignores_unlock 0 90 10 onlyFirstUnlocked
    (UserRoadmapProgress.unlockLevel 0 1 (UserRoadmapProgress.create 0 0)) rfl
    (by decide) (by decide)

/-- C18 (the code on a repeated request): when a `completeLevel` request is followed
by a second one for the same level, the second keeps `completedLevels` as the first
left it but adds the rewards of the level to `totalXpEarned` and `totalCupsEarned`
once more and raises `stats.totalCompleted` by one again. -/
theorem completeLevel_twice (now later score timeTaken score' timeTaken' : Int) (w : World)
    (p : UserRoadmapProgress.Progress) (hp : w.progress = some p) :
    ∃ p₁ p₂, (completeLevel now score timeTaken w).world.progress = some p₁ ∧
      (completeLevel later score' timeTaken'
        (completeLevel now score timeTaken w).world).world.progress = some p₂ ∧
      p₂.completedLevels = p₁.completedLevels ∧
      p₂.totalXpEarned = p₁.totalXpEarned + w.level.rewards.xp ∧
      p₂.totalCupsEarned = p₁.totalCupsEarned + w.level.rewards.cups ∧
      (completeLevel later score' timeTaken'
        (completeLevel now score timeTaken w).world).world.level.stats.totalCompleted
        = (completeLevel now score timeTaken w).world.level.stats.totalCompleted + 1 := by
  obtain ⟨p₁, a1, -, a3, -, -, -, a7, a8, -, -⟩ :=
    completeLevel_of_progress now score timeTaken w p hp
  obtain ⟨p₂, b1, -, b3, -, b5, b6, -, -, b9, -⟩ :=
    completeLevel_of_progress later score' timeTaken' _ p₁ a1
  refine ⟨p₁, p₂, a1, b1, ?_, ?_, ?_, b9⟩
  · rw [b3, a7]
    apply congrArg
    apply UserRoadmapProgress.completeLevel_of_mem
    have := UserRoadmapProgress.mem_completedIds_completeLevel p w.level.id now score timeTaken
    simpa [UserRoadmapProgress.completedIds, a3] using this
  · rw [b5, a8]
  · rw [b6, a8]

theorem completeLevel_twice_witness :
    ∃ p₁ p₂, (completeLevel 0 90 10 onlyFirstUnlocked).world.progress = some p₁ ∧
      (completeLevel 1 90 10 (completeLevel 0 90 10 onlyFirstUnlocked).world).world.progress
        = some p₂ ∧
      p₂.completedLevels = p₁.completedLevels ∧
      p₂.totalXpEarned = p₁.totalXpEarned + onlyFirstUnlocked.level.rewards.xp ∧
      p₂.totalCupsEarned = p₁.totalCupsEarned + onlyFirstUnlocked.level.rewards.cups ∧
      (completeLevel 1 90 10
        (completeLevel 0 90 10 onlyFirstUnlocked).world).world.level.stats.totalCompleted
        = (completeLevel 0 90 10 onlyFirstUnlocked).world.level.stats.totalCompleted + 1 :=
  completeLevel_twice 0 1 90 10 90 10 onlyFirstUnlocked
    (UserRoadmapProgress.unlockLevel 0 1 (UserRoadmapProgress.create 0 0)) rfl

/-- C20 (counterexample): after a completion of a level that rewards 50 XP and 5
cups the roadmap totals are 50 and 5 while the user's account is the account from
before the request, with `totalXpEarned = 0`, `xp = 0` and `cups = 0`; `addXP(50)`
and `addCups(5)` would have left 50 and 5 there. -/
theorem completeLevel_account_counterexample :
    onlyFirstUnlocked.level.rewards.xp = 50 ∧ onlyFirstUnlocked.level.rewards.cups = 5 ∧
    (completeLevel 0 90 10 onlyFirstUnlocked).world.progress.map
        (fun p => (p.totalXpEarned, p.totalCupsEarned)) = some (50, 5) ∧
    (completeLevel 0 90 10 onlyFirstUnlocked).world.account = onlyFirstUnlocked.account ∧
    ((completeLevel 0 90 10 onlyFirstUnlocked).world.account.totalXpEarned,
      (completeLevel 0 90 10 onlyFirstUnlocked).world.account.xp,
      (completeLevel 0 90 10 onlyFirstUnlocked).world.account.cups) = (0, 0, 0) ∧
    (UserProgress.addXP 51 50 onlyFirstUnlocked.account).map
        (fun a => (a.totalXpEarned, a.xp)) = some (50, 50) ∧
    (UserProgress.addCups 5 onlyFirstUnlocked.account).cups = 5 := by
  decide

/-- C20 (amended): on a level completion the rewards `{xp, cups}` are applied to the
roadmap progress only: its `totalXpEarned` and `totalCupsEarned` grow by `xp` and
`cups`, and the handler leaves the user's `UserProgress` account as it was (neither
`addXP` nor `addCups` is called on it). -/
theorem completeLevel_rewards_roadmap_only (now score timeTaken : Int) (w : World) :
    (completeLevel now score timeTaken w).world.account = w.account ∧
    (∀ p : UserRoadmapProgress.Progress, w.progress = some p →
      ∃ p', (completeLevel now score timeTaken w).world.progress = some p' ∧
        (completeLevel now score timeTaken w).status = 200 ∧
        p'.totalXpEarned = p.totalXpEarned + w.level.rewards.xp ∧
        p'.totalCupsEarned = p.totalCupsEarned + w.level.rewards.cups) := by
  constructor
  · cases hp : w.progress with
    | none => simp [completeLevel, hp]
    | some p =>
      obtain ⟨-, -, -, -, -, -, -, -, -, -, h⟩ :=
        completeLevel_of_progress now score timeTaken w p hp
      exact h
  · intro p hp
    obtain ⟨p', h1, h2, -, -, h5, h6, -⟩ := completeLevel_of_progress now score timeTaken w p hp
    exact ⟨p', h1, h2, h5, h6⟩

theorem completeLevel_rewards_roadmap_only_witness :
    ∃ p', (completeLevel 0 90 10 onlyFirstUnlocked).world.progress = some p' ∧
      (completeLevel 0 90 10 onlyFirstUnlocked).status = 200 ∧
      p'.totalXpEarned
        = (UserRoadmapProgress.unlockLevel 0 1 (UserRoadmapProgress.create 0 0)).totalXpEarned
          + onlyFirstUnlocked.level.rewards.xp ∧
      p'.totalCupsEarned
        = (UserRoadmapProgress.unlockLevel 0 1 (UserRoadmapProgress.create 0 0)).totalCupsEarned
          + onlyFirstUnlocked.level.rewards.cups :=
  (completeLevel_rewards_roadmap_only 0 90 10 onlyFirstUnlocked).2
    (UserRoadmapProgress.unlockLevel 0 1 (UserRoadmapProgress.create 0 0)) rfl

end RoadmapController

namespace UserRoadmapProgress

/-! ## Claims on `unlockLevel` -/

/-- The membership test of `unlockLevel`, on the list of identifiers. -/
theorem any_unlocked_iff (p : Progress) (id : Nat) :
    p.unlockedLevels.any (fun l => l.levelId == id) = true ↔ id ∈ unlockedIds p := by
  simp only [unlockedIds, List.any_eq_true, List.mem_map, beq_iff_eq]

theorem unlockLevel_of_mem {p : Progress} {id : Nat} (now : Int) (h : id ∈ unlockedIds p) :
    unlockLevel now id p = p := by
  unfold unlockLevel
  rw [if_pos ((any_unlocked_iff p id).2 h)]

theorem unlockLevel_of_not_mem {p : Progress} {id : Nat} (now : Int) (h : id ∉ unlockedIds p) :
    unlockLevel now id p = { p with
      unlockedLevels := p.unlockedLevels ++ [{ levelId := id, unlockedAt := now }]
      currentLevel := some id } := by
  unfold unlockLevel
  rw [if_neg (fun h' => h ((any_unlocked_iff p id).1 h'))]

theorem mem_unlockedIds_unlockLevel (p : Progress) (id : Nat) (now : Int) :
    id ∈ unlockedIds (unlockLevel now id p) := by
  by_cases h : id ∈ unlockedIds p
  · rw [unlockLevel_of_mem now h]; exact h
  · rw [unlockLevel_of_not_mem now h]; simp [unlockedIds]

theorem unlockLevel_nodup (now : Int) (levelId : Nat) (p : Progress)
    (hnd : (unlockedIds p).Nodup) : (unlockedIds (unlockLevel now levelId p)).Nodup := by
  by_cases h : levelId ∈ unlockedIds p
  · rw [unlockLevel_of_mem now h]; exact hnd
  · rw [unlockLevel_of_not_mem now h]
    simp only [unlockedIds, List.map_append, List.map_cons, List.map_nil]
    rw [List.nodup_append]
    refine ⟨hnd, List.nodup_singleton _, ?_⟩
    intro a ha hb
    simp only [List.mem_singleton] at hb
    subst hb
    exact h ha

/-- Any sequence of `unlockLevel` calls keeps the identifiers pairwise different. -/
theorem foldl_unlockLevel_nodup (calls : List (Int × Nat)) :
    ∀ p : Progress, (unlockedIds p).Nodup →
      (unlockedIds (calls.foldl (fun q c => unlockLevel c.1 c.2 q) p)).Nodup := by
  induction calls with
  | nil => intro p h; exact h
  | cons c cs ih =>
    intro p h
    rw [List.foldl_cons]
    exact ih _ (unlockLevel_nodup c.1 c.2 p h)

/-- C25: the method `unlockLevel` is idempotent. If the level is already in
`unlockedLevels` the document, `currentLevel` included, is returned unchanged;
otherwise exactly one entry for it is appended and `currentLevel` is set to the
level. A second call changes nothing, identifiers that were pairwise different stay
so (after any sequence of calls on a new document no `levelId` occurs twice), the
old list is a prefix of the new one, and `completedLevels`, the totals and
`levelProgress` are not written. -/
theorem unlockLevel_idempotent (now : Int) (levelId : Nat) (p : Progress) :
    (levelId ∈ unlockedIds p → unlockLevel now levelId p = p) ∧
    (levelId ∉ unlockedIds p →
      (unlockLevel now levelId p).unlockedLevels
        = p.unlockedLevels ++ [{ levelId := levelId, unlockedAt := now }] ∧
      (unlockLevel now levelId p).currentLevel = some levelId) ∧
    (∀ later : Int,
      unlockLevel later levelId (unlockLevel now levelId p) = unlockLevel now levelId p) ∧
    ((unlockedIds p).Nodup → (unlockedIds (unlockLevel now levelId p)).Nodup) ∧
    p.unlockedLevels <+: (unlockLevel now levelId p).unlockedLevels ∧
    (unlockLevel now levelId p).completedLevels = p.completedLevels ∧
    (unlockLevel now levelId p).totalXpEarned = p.totalXpEarned ∧
    (unlockLevel now levelId p).totalCupsEarned = p.totalCupsEarned ∧
    (unlockLevel now levelId p).levelProgress = p.levelProgress ∧
    (∀ (userId courseId : Nat) (calls : List (Int × Nat)),
      (unlockedIds (calls.foldl (fun q c => unlockLevel c.1 c.2 q)
        (create userId courseId))).Nodup) := by
  refine ⟨unlockLevel_of_mem now, ?_,
    fun later => unlockLevel_of_mem later (mem_unlockedIds_unlockLevel p levelId now),
    unlockLevel_nodup now levelId p, ?_, ?_, ?_, ?_, ?_,
    fun userId courseId calls => foldl_unlockLevel_nodup calls _ (by simp [unlockedIds, create])⟩
  · intro h
    rw [unlockLevel_of_not_mem now h]
    exact ⟨rfl, rfl⟩
  · by_cases h : levelId ∈ unlockedIds p
    · rw [unlockLevel_of_mem now h]
    · rw [unlockLevel_of_not_mem now h]
      exact List.prefix_append _ _
  all_goals
    unfold unlockLevel
    split_ifs <;> rfl

theorem unlockLevel_idempotent_witness :
    (unlockLevel 0 4 (create 0 0)).unlockedLevels
        = (create 0 0).unlockedLevels ++ [{ levelId := 4, unlockedAt := 0 }] ∧
      (unlockLevel 0 4 (create 0 0)).currentLevel = some 4 :=
  (unlockLevel_idempotent 0 4 (create 0 0)).2.1 (by decide)

end UserRoadmapProgress

namespace UserRoadmapProgress

/-! ## Claims on `updateLevelProgress` -/

theorem find?_progress_eq_none (l : List LevelProgressEntry) (id : Nat) :
    l.find? (fun e => e.levelId == id) = none ↔ id ∉ l.map (fun e => e.levelId) := by
  induction l with
  | nil => simp
  | cons e es ih =>
    by_cases h : e.levelId = id
    · simp [List.find?_cons, h]
    · have h' : ¬ id = e.levelId := fun h'' => h h''.symm
      simp [List.find?_cons, h, h', ih]

theorem find?_progress_append_fresh (l : List LevelProgressEntry) (id : Nat)
    (e : LevelProgressEntry) (he : e.levelId = id)
    (h : id ∉ l.map (fun e => e.levelId)) :
    (l ++ [e]).find? (fun e => e.levelId == id) = some e := by
  induction l with
  | nil => simp [List.find?_cons, he]
  | cons x xs ih =>
    simp only [List.map_cons, List.mem_cons, not_or] at h
    have hx : ¬ x.levelId = id := fun h' => h.1 h'.symm
    rw [List.cons_append, List.find?_cons_of_neg _ (by simpa using hx)]
    exact ih h.2

theorem updateFirst_append_fresh (l : List LevelProgressEntry) (id : Nat)
    (f : LevelProgressEntry → LevelProgressEntry) (e : LevelProgressEntry) (he : e.levelId = id)
    (h : id ∉ l.map (fun e => e.levelId)) :
    updateFirst id f (l ++ [e]) = l ++ [f e] := by
  induction l with
  | nil => simp [updateFirst, he]
  | cons x xs ih =>
    simp only [List.map_cons, List.mem_cons, not_or] at h
    have hx : ¬ x.levelId = id := fun h' => h.1 h'.symm
    rw [List.cons_append, updateFirst, if_neg (by simpa using hx), ih h.2, List.cons_append]

/-- C26 (the code on the first call for a level): when the level has no
`levelProgress` entry, `updateLevelProgress` appends an entry with no completed
lesson and percentage 0, so the lesson of the call is not recorded; a second call
with the same lesson then changes the entry to `completedLessons = [lessonId]` and
percentage `round(1 / totalLessons * 100)`. `completedLevels` is not written. -/
theorem updateLevelProgress_first_call (now later : Int) (levelId lessonId : Nat)
    (totalLessons : Int) (p : Progress) (hnew : levelId ∉ progressIds p) :
    (updateLevelProgress now levelId lessonId totalLessons p).levelProgress
      = p.levelProgress ++
        [{ levelId := levelId, completedLessons := [], totalLessons := totalLessons,
           progressPercentage := 0, startedAt := some now }] ∧
    (updateLevelProgress later levelId lessonId totalLessons
        (updateLevelProgress now levelId lessonId totalLessons p)).levelProgress
      = p.levelProgress ++
        [{ levelId := levelId, completedLessons := [lessonId], totalLessons := totalLessons,
           progressPercentage := roundPercent 1 totalLessons, startedAt := some now }] ∧
    (updateLevelProgress now levelId lessonId totalLessons p).completedLevels
      = p.completedLevels := by
  have h1 : updateLevelProgress now levelId lessonId totalLessons p
      = { p with levelProgress := p.levelProgress ++
        [{ levelId := levelId, completedLessons := [], totalLessons := totalLessons,
           progressPercentage := 0, startedAt := some now }] } := by
    unfold updateLevelProgress
    rw [(find?_progress_eq_none p.levelProgress levelId).2 hnew]
  refine ⟨by rw [h1], ?_, by rw [h1]⟩
  rw [h1]
  unfold updateLevelProgress
  simp only
  rw [find?_progress_append_fresh p.levelProgress levelId _ rfl hnew]
  simp only
  rw [updateFirst_append_fresh p.levelProgress levelId _ _ rfl hnew]
  simp [recordLesson]

theorem updateLevelProgress_first_call_witness :
    (updateLevelProgress 0 3 10 2 (create 0 0)).levelProgress
      = (create 0 0).levelProgress ++
        [{ levelId := 3, completedLessons := [], totalLessons := 2,
           progressPercentage := 0, startedAt := some 0 }] ∧
    (updateLevelProgress 1 3 10 2 (updateLevelProgress 0 3 10 2 (create 0 0))).levelProgress
      = (create 0 0).levelProgress ++
        [{ levelId := 3, completedLessons := [10], totalLessons := 2,
           progressPercentage := roundPercent 1 2, startedAt := some 0 }] ∧
    (updateLevelProgress 0 3 10 2 (create 0 0)).completedLevels
      = (create 0 0).completedLevels :=
  updateLevelProgress_first_call 0 1 3 10 2 (create 0 0) (by decide)

end UserRoadmapProgress

namespace RoadmapController

open UserRoadmapProgress

/-! ## Claims on `checkLevelUnlock` and the handler `unlockLevel` -/

/-- The part of `reasons` that comes from the previous level. -/
theorem mem_unlockReasons_previous (level : RoadmapLevel.Level) (p : Progress) :
    Reason.previousLevelNotCompleted ∈ unlockReasons level p ↔
      ∃ q, level.unlockRequirements.previousLevel = some q ∧ q ∉ completedIds p := by
  unfold unlockReasons
  cases hq : level.unlockRequirements.previousLevel with
  | none => simp
  | some q =>
    by_cases hc : p.completedLevels.any (fun l => l.levelId == q) = true
    · have hm := (any_completed_iff p q).1 hc
      simp only [hc, if_true, List.nil_append, List.mem_append]
      constructor
      · intro h
        rcases h with h | h <;> (split_ifs at h <;> simp at h)
      · rintro ⟨q', hq', hn⟩
        cases hq'
        exact absurd hm hn
    · have hm : q ∉ completedIds p := fun h => hc ((any_completed_iff p q).2 h)
      simp only [hc]
      constructor
      · intro _
        exact ⟨q, rfl, hm⟩
      · intro _
        simp

/-- The part of `reasons` that comes from the XP gate. -/
theorem mem_unlockReasons_xp (level : RoadmapLevel.Level) (p : Progress) :
    (∃ a b, Reason.needXP a b ∈ unlockReasons level p) ↔
      level.unlockRequirements.minXP ≠ 0 ∧
        p.totalXpEarned < level.unlockRequirements.minXP := by
  unfold unlockReasons
  constructor
  · rintro ⟨a, b, h⟩
    simp only [List.mem_append] at h
    rcases h with (h | h) | h
    · split at h
      · split_ifs at h <;> simp at h
      · simp at h
    · split_ifs at h with hc
      · exact hc
      · simp at h
    · split_ifs at h <;> simp at h
  · intro hc
    refine ⟨level.unlockRequirements.minXP, p.totalXpEarned, ?_⟩
    simp only [List.mem_append]
    refine Or.inl (Or.inr ?_)
    rw [if_pos hc]
    simp

/-- The part of `reasons` that comes from the cups gate. -/
theorem mem_unlockReasons_cups (level : RoadmapLevel.Level) (p : Progress) :
    (∃ a b, Reason.needCups a b ∈ unlockReasons level p) ↔
      level.unlockRequirements.minCups ≠ 0 ∧
        p.totalCupsEarned < level.unlockRequirements.minCups := by
  unfold unlockReasons
  constructor
  · rintro ⟨a, b, h⟩
    simp only [List.mem_append] at h
    rcases h with (h | h) | h
    · split at h
      · split_ifs at h <;> simp at h
      · simp at h
    · split_ifs at h <;> simp at h
    · split_ifs at h with hc
      · exact hc
      · simp at h
  · intro hc
    refine ⟨level.unlockRequirements.minCups, p.totalCupsEarned, ?_⟩
    simp only [List.mem_append]
    refine Or.inr ?_
    rw [if_pos hc]
    simp

theorem unlockReasons_eq_nil_iff (level : RoadmapLevel.Level) (p : Progress) :
    unlockReasons level p = [] ↔
      (∀ q, level.unlockRequirements.previousLevel = some q → q ∈ completedIds p) ∧
      ¬ (level.unlockRequirements.minXP ≠ 0 ∧
          p.totalXpEarned < level.unlockRequirements.minXP) ∧
      ¬ (level.unlockRequirements.minCups ≠ 0 ∧
          p.totalCupsEarned < level.unlockRequirements.minCups) := by
  constructor
  · intro h
    refine ⟨?_, ?_, ?_⟩
    · intro q hq
      by_contra hn
      have := (mem_unlockReasons_previous level p).2 ⟨q, hq, hn⟩
      rw [h] at this
      simp at this
    · intro hc
      obtain ⟨a, b, hab⟩ := (mem_unlockReasons_xp level p).2 hc
      rw [h] at hab
      simp at hab
    · intro hc
      obtain ⟨a, b, hab⟩ := (mem_unlockReasons_cups level p).2 hc
      rw [h] at hab
      simp at hab
  · rintro ⟨h1, h2, h3⟩
    unfold unlockReasons
    rw [if_neg h2, if_neg h3]
    cases hq : level.unlockRequirements.previousLevel with
    | none => rfl
    | some q =>
      simp only [List.append_nil]
      rw [if_pos ((any_completed_iff p q).2 (h1 q hq))]

theorem checkLevelUnlock_of_locked (w : World) (p : Progress) (hp : w.progress = some p)
    (hlocked : w.level.id ∉ unlockedIds p) :
    checkLevelUnlock w
      = CheckReply.checked (decide (unlockReasons w.level p = [])) (unlockReasons w.level p) := by
  unfold checkLevelUnlock
  rw [hp]
  simp only
  rw [if_neg (fun h => hlocked ((any_unlocked_iff p w.level.id).1 h))]
  congr 1
  simp [List.length_eq_zero]

/-- The reasons of the code are the unmet requirements of the specification when
the totals are not negative. -/
theorem unlockReasons_eq_spec (level : RoadmapLevel.Level) (p : Progress)
    (hxp : 0 ≤ p.totalXpEarned) (hcups : 0 ≤ p.totalCupsEarned) :
    unlockReasons level p = specUnmetReasons level p := by
  unfold unlockReasons specUnmetReasons
  have e1 : (level.unlockRequirements.minXP ≠ 0 ∧
      p.totalXpEarned < level.unlockRequirements.minXP)
      ↔ p.totalXpEarned < level.unlockRequirements.minXP := by
    constructor
    · exact fun h => h.2
    · exact fun h => ⟨by omega, h⟩
  have e2 : (level.unlockRequirements.minCups ≠ 0 ∧
      p.totalCupsEarned < level.unlockRequirements.minCups)
      ↔ p.totalCupsEarned < level.unlockRequirements.minCups := by
    constructor
    · exact fun h => h.2
    · exact fun h => ⟨by omega, h⟩
  simp only [e1, e2]
  cases hq : level.unlockRequirements.previousLevel with
  | none => rfl
  | some q =>
    simp only
    by_cases hc : q ∈ completedIds p
    · rw [if_pos hc, if_pos ((any_completed_iff p q).2 hc)]
    · rw [if_neg hc, if_neg (fun h => hc ((any_completed_iff p q).1 h))]

/-- For a level that is not already unlocked, `checkLevelUnlock` answers with the
list built by `unlockReasons` and with the flag `reasons = []`. On a document
whose totals are not negative the list is the one of the specification: one entry
if the previous level, when there is one, is not in `completedLevels`, one if the
total XP is below `minXP`, one if the total cups are below `minCups`, and no entry
for a requirement that is met. -/
theorem checkLevelUnlock_lists_unmet (w : World) (p : Progress) (hp : w.progress = some p)
    (hlocked : w.level.id ∉ unlockedIds p)
    (hxp : 0 ≤ p.totalXpEarned) (hcups : 0 ≤ p.totalCupsEarned) :
    checkLevelUnlock w
      = CheckReply.checked (decide (specUnmetReasons w.level p = []))
          (specUnmetReasons w.level p) ∧
    ((checkLevelUnlock w).unlocked = true ↔ (checkLevelUnlock w).reasons = []) ∧
    (Reason.previousLevelNotCompleted ∈ (checkLevelUnlock w).reasons ↔
      ∃ q, w.level.unlockRequirements.previousLevel = some q ∧ q ∉ completedIds p) ∧
    ((∃ a b, Reason.needXP a b ∈ (checkLevelUnlock w).reasons) ↔
      p.totalXpEarned < w.level.unlockRequirements.minXP) ∧
    ((∃ a b, Reason.needCups a b ∈ (checkLevelUnlock w).reasons) ↔
      p.totalCupsEarned < w.level.unlockRequirements.minCups) ∧
    (checkLevelUnlock w).reasons.Nodup := by
  have hc := checkLevelUnlock_of_locked w p hp hlocked
  have hs := unlockReasons_eq_spec w.level p hxp hcups
  refine ⟨by rw [hc, hs], ?_, ?_, ?_, ?_, ?_⟩
  · rw [hc]; simp [CheckReply.unlocked, CheckReply.reasons]
  · rw [hc]; exact mem_unlockReasons_previous w.level p
  · rw [hc]
    refine (mem_unlockReasons_xp w.level p).trans ⟨fun h => h.2, fun h => ⟨by omega, h⟩⟩
  · rw [hc]
    refine (mem_unlockReasons_cups w.level p).trans ⟨fun h => h.2, fun h => ⟨by omega, h⟩⟩
  · rw [hc]
    simp only [CheckReply.reasons, unlockReasons]
    cases w.level.unlockRequirements.previousLevel <;> simp only <;> split_ifs <;> simp

/-- C22 (the code at the failing input): the reply of `checkLevelUnlock` does not
depend on `requiredAchievements` or on the user's account. For the level with
`minXP = 100` and the required achievement 7, a user without the achievement gets
the XP reason alone at `totalXpEarned = 50` and `unlocked = true` with no reason at
`totalXpEarned = 100`. -/
theorem checkLevelUnlock_ignores_achievements :
    (∀ (w : World) (required : List Nat) (account : UserProgress.Account),
      checkLevelUnlock
          { w with
            level := { w.level with unlockRequirements :=
              { w.level.unlockRequirements with requiredAchievements := required } }
            account := account }
        = checkLevelUnlock w) ∧
    gatedLevel.unlockRequirements.requiredAchievements = [7] ∧
    7 ∉ UserProgress.achievementIds (UserProgress.newAccount 0 0) ∧
    checkLevelUnlock (gatedWorld 50 (UserProgress.newAccount 0 0))
      = CheckReply.checked false [Reason.needXP 100 50] ∧
    checkLevelUnlock (gatedWorld 100 (UserProgress.newAccount 0 0))
      = CheckReply.checked true [] := by
  refine ⟨?_, by decide, by decide, by decide, by decide⟩
  intro w required account
  rfl

/-- C23 (counterexample): a user whose account has `totalXpEarned = 500` and whose
roadmap document for the course has `totalXpEarned = 0` asks about the level with
`minXP = 100`: the XP requirement is reported unmet, with the current value 0. -/
theorem checkLevelUnlock_account_counterexample :
    (gatedWorld 0 { UserProgress.newAccount 0 0 with totalXpEarned := 500 }).account.totalXpEarned
      = 500 ∧
    (gatedWorld 0 { UserProgress.newAccount 0 0 with totalXpEarned := 500 }
      ).level.unlockRequirements.minXP = 100 ∧
    checkLevelUnlock (gatedWorld 0 { UserProgress.newAccount 0 0 with totalXpEarned := 500 })
      = CheckReply.checked false [Reason.needXP 100 0] := by
  decide

/-- C23 (amended): the XP and cups gates of `checkLevelUnlock` compare the totals of
the user's roadmap document for the course with the thresholds of the level: for a
level that is not already unlocked the XP requirement is reported unmet if and only
if `minXP ≠ 0` and `progress.totalXpEarned < minXP`, the cups requirement if and
only if `minCups ≠ 0` and `progress.totalCupsEarned < minCups`, and the reply does
not depend on the user's account. -/
theorem checkLevelUnlock_gates (w : World) (p : Progress) (hp : w.progress = some p)
    (hlocked : w.level.id ∉ unlockedIds p) :
    ((∃ a b, Reason.needXP a b ∈ (checkLevelUnlock w).reasons) ↔
      w.level.unlockRequirements.minXP ≠ 0 ∧
        p.totalXpEarned < w.level.unlockRequirements.minXP) ∧
    ((∃ a b, Reason.needCups a b ∈ (checkLevelUnlock w).reasons) ↔
      w.level.unlockRequirements.minCups ≠ 0 ∧
        p.totalCupsEarned < w.level.unlockRequirements.minCups) ∧
    (∀ account : UserProgress.Account,
      checkLevelUnlock { w with account := account } = checkLevelUnlock w) := by
  have hc := checkLevelUnlock_of_locked w p hp hlocked
  refine ⟨?_, ?_, fun _ => rfl⟩
  · rw [hc]; exact mem_unlockReasons_xp w.level p
  · rw [hc]; exact mem_unlockReasons_cups w.level p

theorem checkLevelUnlock_gates_witness :
    (∃ a b, Reason.needXP a b ∈
        (checkLevelUnlock (gatedWorld 50 (UserProgress.newAccount 0 0))).reasons) ↔
      (gatedWorld 50 (UserProgress.newAccount 0 0)).level.unlockRequirements.minXP ≠ 0 ∧
        ({ create 0 0 with totalXpEarned := 50 } : Progress).totalXpEarned
          < (gatedWorld 50 (UserProgress.newAccount 0 0)).level.unlockRequirements.minXP :=
  (checkLevelUnlock_gates (gatedWorld 50 (UserProgress.newAccount 0 0))
    { create 0 0 with totalXpEarned := 50 } rfl (by decide)).1

/-- C24 (the code at the failing input): the handler `unlockLevel` answers 200 and
leaves the level in `unlockedLevels` for every user and level, without looking at
the requirements. The user with `totalXpEarned = 50` and nothing unlocked, whom
`checkLevelUnlock` reports as not eligible for the level with `minXP = 100`, has the
level unlocked after the request. -/
theorem unlockLevel_unconditional :
    (∀ (now : Int) (userId : Nat) (w : World),
      (RoadmapController.unlockLevel now userId w).status = 200 ∧
      ∃ p', (RoadmapController.unlockLevel now userId w).world.progress = some p' ∧
        w.level.id ∈ unlockedIds p') ∧
    (checkLevelUnlock (gatedWorld 50 (UserProgress.newAccount 0 0))).unlocked = false ∧
    (gatedWorld 50 (UserProgress.newAccount 0 0)).progress.map unlockedIds = some [] ∧
    (RoadmapController.unlockLevel 0 0
        (gatedWorld 50 (UserProgress.newAccount 0 0))).world.progress.map unlockedIds
      = some [2] := by
  refine ⟨?_, by decide, by decide, by decide⟩
  intro now userId w
  refine ⟨rfl, _, rfl, ?_⟩
  exact mem_unlockedIds_unlockLevel _ _ _

/-- C30: eligibility is monotone in the progress. If `checkLevelUnlock` reports a
level as unlocked for a roadmap document `p`, it reports it as unlocked for every
document `p'` whose `totalXpEarned` and `totalCupsEarned` are at least those of `p`
and whose `unlockedLevels` and `completedLevels` contain the levels of `p`. -/
theorem checkLevelUnlock_monotone (level : RoadmapLevel.Level) (p p' : Progress)
    (account account' : UserProgress.Account)
    (h : (checkLevelUnlock
      { level := level, progress := some p, account := account }).unlocked = true)
    (hxp : p.totalXpEarned ≤ p'.totalXpEarned) (hcups : p.totalCupsEarned ≤ p'.totalCupsEarned)
    (hunlocked : unlockedIds p ⊆ unlockedIds p')
    (hcompleted : completedIds p ⊆ completedIds p') :
    (checkLevelUnlock
      { level := level, progress := some p', account := account' }).unlocked = true := by
  by_cases hu' : level.id ∈ unlockedIds p'
  · unfold checkLevelUnlock
    simp only
    rw [if_pos ((any_unlocked_iff p' level.id).2 hu')]
    rfl
  · have hu : level.id ∉ unlockedIds p := fun hmem => hu' (hunlocked hmem)
    rw [checkLevelUnlock_of_locked _ p rfl hu] at h
    rw [checkLevelUnlock_of_locked _ p' rfl hu']
    simp only [CheckReply.unlocked, decide_eq_true_eq] at h ⊢
    obtain ⟨h1, h2, h3⟩ := (unlockReasons_eq_nil_iff level p).1 h
    refine (unlockReasons_eq_nil_iff level p').2 ⟨?_, ?_, ?_⟩
    · exact fun q hq => hcompleted (h1 q hq)
    · intro hc
      exact h2 ⟨hc.1, by omega⟩
    · intro hc
      exact h3 ⟨hc.1, by omega⟩

theorem checkLevelUnlock_monotone_witness :
    (checkLevelUnlock
      { level := gatedLevel, progress := some { create 0 0 with totalXpEarned := 150 },
        account := UserProgress.newAccount 0 0 }).unlocked = true :=
  checkLevelUnlock_monotone gatedLevel { create 0 0 with totalXpEarned := 100 }
    { create 0 0 with totalXpEarned := 150 } (UserProgress.newAccount 0 0)
    (UserProgress.newAccount 0 0) (by decide) (by decide) (by decide)
    (by simp [unlockedIds, create]) (by simp [completedIds, create])

end RoadmapController

namespace UserProgress

/-- The result of a grant on exact integers passes the schema validators when the
account did and the balance after the credit is not negative. -/
theorem addXP_schemaValid {fuel : Nat} {amount : Int} {s s' : Account}
    (h : addXP fuel amount s = some s') (hv : schemaValid s = true)
    (hx : 0 ≤ s.xp + amount) : schemaValid s' = true := by
  have hxp := levelUpLoop_xp_nonneg _ _ _ h (by simpa [creditXP] using hx)
  obtain ⟨k, hl, -, -, -, -, hsame⟩ := levelUpLoop_spec _ _ _ h
  obtain ⟨-, -, hc, -⟩ := hsame
  simp only [creditXP] at hl hc
  simp only [schemaValid, Bool.and_eq_true, decide_eq_true_eq] at hv ⊢
  omega

namespace Double

/-! ## The double model and the exact model -/

theorem fl_of_safe {x : Int} (h₁ : -9007199254740992 ≤ x) (h₂ : x ≤ 9007199254740992) :
    fl x = x := by
  unfold fl
  rw [if_pos ⟨h₁, h₂⟩]

theorem roundHalfEven_ge (n p : Nat) : n / p ≤ roundHalfEven n p := by
  unfold roundHalfEven
  split_ifs <;> omega

theorem spacingFrom_spec : ∀ (fuel n p : Nat), 0 < p → p * 4503599627370496 ≤ n →
    0 < spacingFrom fuel n p ∧ spacingFrom fuel n p * 4503599627370496 ≤ n := by
  intro fuel
  induction fuel with
  | zero => intro n p hp h; exact ⟨hp, h⟩
  | succ k ih =>
    intro n p hp h
    unfold spacingFrom
    by_cases hc : n < 9007199254740992 * p
    · rw [if_pos hc]; exact ⟨hp, h⟩
    · rw [if_neg hc]
      exact ih n (2 * p) (by omega) (by omega)

theorem roundNat_ge {n : Nat} (h : 4503599627370496 ≤ n) : 4503599627370496 ≤ roundNat n := by
  obtain ⟨hp, hle⟩ := spacingFrom_spec 1100 n 1 (by omega) (by omega)
  unfold roundNat spacing
  have h₁ : 4503599627370496 ≤ n / spacingFrom 1100 n 1 :=
    (Nat.le_div_iff_mul_le hp).2 (by omega)
  have h₂ := roundHalfEven_ge n (spacingFrom 1100 n 1)
  calc 4503599627370496 ≤ 1 * roundHalfEven n (spacingFrom 1100 n 1) := by omega
    _ ≤ spacingFrom 1100 n 1 * roundHalfEven n (spacingFrom 1100 n 1) :=
      Nat.mul_le_mul_right _ hp

/-- Rounding a number above `2 ^ 53` does not bring it below `2 ^ 52`. -/
theorem fl_of_large {x : Int} (h : 9007199254740992 < x) : 4503599627370496 ≤ fl x := by
  unfold fl
  rw [if_neg (by omega), if_pos (by omega)]
  have := roundNat_ge (n := x.toNat) (by omega)
  omega

theorem growThreshold_of_safe {t : Int} (h₁ : 0 ≤ t) (h₂ : 3 * t ≤ 9007199254740992) :
    growThreshold t = UserProgress.growThreshold t := by
  unfold growThreshold UserProgress.growThreshold
  rw [fl_of_safe (by omega) (by omega)]

theorem levelUpStep_of_safe {s : Account} (hT : 0 < s.xpToNextLevel)
    (hc : s.xpToNextLevel ≤ s.xp) (hx : 3 * s.xp ≤ 9007199254740992)
    (hl : -9007199254740992 ≤ s.level) (hs : s.level + s.xp ≤ 9007199254740992) :
    levelUpStep s = UserProgress.levelUpStep s := by
  unfold levelUpStep UserProgress.levelUpStep
  rw [fl_of_safe (by omega) (by omega), fl_of_safe (by omega) (by omega),
    growThreshold_of_safe (by omega) (by omega)]

/-- While the numbers are safe integers the loop on doubles is the loop on exact
integers. -/
theorem levelUpLoop_of_safe : ∀ (fuel : Nat) (s : Account), 0 < s.xpToNextLevel →
    3 * s.xp ≤ 9007199254740992 → -9007199254740992 ≤ s.level →
    s.level + s.xp ≤ 9007199254740992 →
    levelUpLoop fuel s = UserProgress.levelUpLoop fuel s := by
  intro fuel
  induction fuel with
  | zero => intro s _ _ _ _; rfl
  | succ n ih =>
    intro s hT hx hl hs
    unfold levelUpLoop UserProgress.levelUpLoop
    by_cases hc : s.xpToNextLevel ≤ s.xp
    · rw [if_pos hc, if_pos hc, levelUpStep_of_safe hT hc hx hl hs]
      apply ih
      · exact growThreshold_pos hT
      · simp only [UserProgress.levelUpStep]; omega
      · simp only [UserProgress.levelUpStep]; omega
      · simp only [UserProgress.levelUpStep]; omega
    · rw [if_neg hc, if_neg hc]

theorem creditXP_of_safe {s : Account} {amount : Int} (h : SafeGrant s amount) :
    creditXP amount s = UserProgress.creditXP amount s := by
  obtain ⟨h1, h2, -, -, h5, h6, h7, h8⟩ := h
  unfold creditXP UserProgress.creditXP
  rw [fl_of_safe (by omega) (by omega), fl_of_safe h5 h6, fl_of_safe h7 h8]

/-- A grant whose numbers are safe integers: the method on doubles computes what the
method on exact integers computes, and then saves. -/
theorem addXP_of_safe {s : Account} {amount : Int} (fuel : Nat)
    (hT : 0 < s.xpToNextLevel) (h : SafeGrant s amount) :
    addXP fuel amount s = (UserProgress.addXP fuel amount s).map (save s) := by
  unfold addXP UserProgress.addXP
  rw [creditXP_of_safe h]
  obtain ⟨h1, h2, h3, h4, -⟩ := h
  rw [levelUpLoop_of_safe fuel _ (by simpa [UserProgress.creditXP] using hT)
    (by simpa [UserProgress.creditXP] using h1) (by simpa [UserProgress.creditXP] using h3)
    (by simpa [UserProgress.creditXP] using h4)]

/-- A safe grant that leaves a non-negative balance on a valid account is saved. -/
theorem addXP_saved {s s' : Account} {amount : Int} {fuel : Nat}
    (hT : 0 < s.xpToNextLevel) (h : SafeGrant s amount) (hv : schemaValid s = true)
    (hx : 0 ≤ s.xp + amount) (hrun : UserProgress.addXP fuel amount s = some s') :
    addXP fuel amount s = some (SaveResult.saved s') := by
  rw [addXP_of_safe fuel hT h, hrun]
  simp only [Option.map_some', save]
  rw [if_pos (addXP_schemaValid hrun hv hx)]

/-! ## The loop on doubles while `xp` is a safe integer -/

theorem growThreshold_rounded_pos {t : Int} (ht : 0 < t) : 0 < growThreshold t := by
  unfold growThreshold
  by_cases h : 3 * t ≤ 9007199254740992
  · rw [fl_of_safe (by omega) h]; omega
  · have := fl_of_large (x := 3 * t) (by omega); omega

theorem fl_succ_level {l : Int} (h : 1 ≤ l) : 1 ≤ fl (l + 1) := by
  by_cases h' : l + 1 ≤ 9007199254740992
  · rw [fl_of_safe (by omega) h']; omega
  · have := fl_of_large (x := l + 1) (by omega); omega

/-- With a positive threshold and `0 ≤ xp ≤ 2 ^ 53` the loop on doubles ends within
`xp + 1` evaluations of its condition; it leaves `xp ≥ 0` and `level ≥ 1` and writes
no field besides `xp`, `level` and `xpToNextLevel`. -/
theorem levelUpLoop_finishes : ∀ (fuel : Nat) (s : Account), 0 < s.xpToNextLevel → 0 ≤ s.xp →
    s.xp ≤ 9007199254740992 → 1 ≤ s.level → s.xp.toNat < fuel →
    ∃ s', levelUpLoop fuel s = some s' ∧ 0 ≤ s'.xp ∧ s'.xp ≤ s.xp ∧ 1 ≤ s'.level ∧
      0 < s'.xpToNextLevel ∧ sameOutsideLevel s s' := by
  intro fuel
  induction fuel with
  | zero => intro s _ _ _ _ h; omega
  | succ n ih =>
    intro s hT h0 hx hl hf
    unfold levelUpLoop
    by_cases hc : s.xpToNextLevel ≤ s.xp
    · rw [if_pos hc]
      have e : (levelUpStep s).xp = s.xp - s.xpToNextLevel := by
        simp only [levelUpStep]
        exact fl_of_safe (by omega) (by omega)
      obtain ⟨s', hs', a1, a2, a3, a4, a5⟩ := ih (levelUpStep s) (growThreshold_rounded_pos hT)
        (by rw [e]; omega) (by rw [e]; omega) (fl_succ_level hl) (by rw [e]; omega)
      refine ⟨s', hs', a1, by rw [e] at a2; omega, a3, a4, ?_⟩
      simpa [sameOutsideLevel, levelUpStep] using a5
    · rw [if_neg hc]
      exact ⟨s, rfl, h0, le_refl _, hl, hT, sameOutsideLevel_refl s⟩

theorem levelUpLoop_more_fuel : ∀ (fuel : Nat) (s s' : Account),
    levelUpLoop fuel s = some s' → ∀ m, fuel ≤ m → levelUpLoop m s = some s' := by
  intro fuel
  induction fuel with
  | zero => intro s s' h; simp [levelUpLoop] at h
  | succ n ih =>
    intro s s' h m hm
    obtain ⟨m', rfl⟩ : ∃ m', m = m' + 1 := ⟨m - 1, by omega⟩
    unfold levelUpLoop at h ⊢
    by_cases hc : s.xpToNextLevel ≤ s.xp
    · rw [if_pos hc] at h ⊢
      exact ih _ _ h m' (by omega)
    · rw [if_neg hc] at h ⊢
      exact h

/-- A grant of an amount with `0 ≤ xp + amount ≤ 2 ^ 53` to a valid account with a
positive threshold returns and is saved; the loop has written `xp`, `level` and
`xpToNextLevel` only. -/
theorem addXP_finishes (s : Account) (amount : Int) (hT : 0 < s.xpToNextLevel)
    (hv : schemaValid s = true) (hx : 0 ≤ s.xp + amount)
    (hx' : s.xp + amount ≤ 9007199254740992) :
    ∃ s', (∀ fuel : Nat, (s.xp + amount).toNat < fuel →
        addXP fuel amount s = some (SaveResult.saved s')) ∧
      levelUpLoop ((s.xp + amount).toNat + 1) (creditXP amount s) = some s' ∧
      0 ≤ s'.xp ∧ s'.xp ≤ s.xp + amount ∧ 0 < s'.xpToNextLevel ∧ schemaValid s' = true ∧
      sameOutsideLevel (creditXP amount s) s' := by
  have hv' := hv
  simp only [schemaValid, Bool.and_eq_true, decide_eq_true_eq] at hv'
  obtain ⟨⟨hlev, hxp⟩, hcups⟩ := hv'
  have e : (creditXP amount s).xp = s.xp + amount := by
    simp only [creditXP]
    exact fl_of_safe (by omega) hx'
  obtain ⟨s', hs', a1, a2, a3, a4, a5⟩ :=
    levelUpLoop_finishes ((s.xp + amount).toNat + 1) (creditXP amount s)
      (by simpa [creditXP] using hT) (by rw [e]; exact hx) (by rw [e]; exact hx')
      (by simpa [creditXP] using hlev) (by rw [e]; omega)
  have hvalid : schemaValid s' = true := by
    obtain ⟨-, -, hc, -⟩ := a5
    simp only [creditXP] at hc
    simp only [schemaValid, Bool.and_eq_true, decide_eq_true_eq]
    exact ⟨⟨a3, a1⟩, by omega⟩
  refine ⟨s', ?_, hs', a1, by rw [e] at a2; exact a2, a4, hvalid, a5⟩
  intro fuel hf
  unfold addXP
  rw [levelUpLoop_more_fuel _ _ _ hs' fuel (by omega)]
  simp only [Option.map_some', save]
  rw [if_pos hvalid]

theorem levelUpStep_creditXP_safe {b : Int} {s : Account} (hb : 0 ≤ b)
    (hT : 0 < s.xpToNextLevel) (hc : s.xpToNextLevel ≤ s.xp)
    (hx : s.xp + b ≤ 9007199254740992) :
    levelUpStep (creditXP b s) = creditXP b (levelUpStep s) := by
  have e1 : fl (s.xp + b) = s.xp + b := fl_of_safe (by omega) hx
  have e2 : fl (s.xp - s.xpToNextLevel) = s.xp - s.xpToNextLevel :=
    fl_of_safe (by omega) (by omega)
  have e3 : s.xp + b - s.xpToNextLevel = s.xp - s.xpToNextLevel + b := by ring
  simp only [levelUpStep, creditXP, e1, e2, e3]

theorem creditXP_creditXP_safe {a b : Int} {s : Account} (ha : 0 ≤ a) (hb : 0 ≤ b)
    (hx₀ : -9007199254740992 ≤ s.xp) (hx₁ : s.xp + (a + b) ≤ 9007199254740992)
    (ht₀ : -9007199254740992 ≤ s.totalXpEarned)
    (ht₁ : s.totalXpEarned + (a + b) ≤ 9007199254740992)
    (hd₀ : -9007199254740992 ≤ s.todayProgress.xpEarned)
    (hd₁ : s.todayProgress.xpEarned + (a + b) ≤ 9007199254740992) :
    creditXP b (creditXP a s) = creditXP (a + b) s := by
  have e1 : fl (s.xp + a) = s.xp + a := fl_of_safe (by omega) (by omega)
  have e2 : fl (s.totalXpEarned + a) = s.totalXpEarned + a := fl_of_safe (by omega) (by omega)
  have e3 : fl (s.todayProgress.xpEarned + a) = s.todayProgress.xpEarned + a :=
    fl_of_safe (by omega) (by omega)
  have f1 : s.xp + a + b = s.xp + (a + b) := by ring
  have f2 : s.totalXpEarned + a + b = s.totalXpEarned + (a + b) := by ring
  have f3 : s.todayProgress.xpEarned + a + b = s.todayProgress.xpEarned + (a + b) := by ring
  simp only [creditXP, e1, e2, e3, f1, f2, f3]

/-- While `xp + b` is a safe integer, crediting `b ≥ 0` before the loop or after it
ends in the same account. -/
theorem levelUpLoop_creditXP_safe (b : Int) (hb : 0 ≤ b) : ∀ (n : Nat) (s s' : Account),
    0 < s.xpToNextLevel → s.xp + b ≤ 9007199254740992 →
    levelUpLoop n s = some s' → ∀ (m : Nat) (r : Account),
    levelUpLoop m (creditXP b s') = some r → ∃ m', levelUpLoop m' (creditXP b s) = some r := by
  intro n
  induction n with
  | zero => intro s s' _ _ h; simp [levelUpLoop] at h
  | succ n ih =>
    intro s s' hT hx h m r hr
    unfold levelUpLoop at h
    by_cases hc : s.xpToNextLevel ≤ s.xp
    · rw [if_pos hc] at h
      have e : (levelUpStep s).xp = s.xp - s.xpToNextLevel := by
        simp only [levelUpStep]
        exact fl_of_safe (by omega) (by omega)
      obtain ⟨m', hm'⟩ := ih _ _ (growThreshold_rounded_pos hT) (by rw [e]; omega) h m r hr
      refine ⟨m' + 1, ?_⟩
      have e1 : fl (s.xp + b) = s.xp + b := fl_of_safe (by omega) hx
      rw [levelUpLoop, if_pos (by simp only [creditXP, e1]; omega),
        levelUpStep_creditXP_safe hb hT hc hx]
      exact hm'
    · rw [if_neg hc] at h
      cases h
      exact ⟨m, hr⟩

end Double

end UserProgress

namespace UserProgress

namespace Double

/-! ## Claims on `addXP` and `addCups`, on doubles -/

set_option maxRecDepth 1000000 in
/-- The grant of `10 ^ 17` XP to a newly created account. -/
theorem addXP_large_grant :
    addXP 200 100000000000000000 (newAccount 0 0) = some (SaveResult.saved afterLargeGrant) := by
  decide

set_option maxRecDepth 1000000 in
/-- The exact threshold after 83 level-ups from 100. -/
theorem growThreshold_iterate_83 :
    UserProgress.growThreshold^[83] 100 = 41090874963268477 := by
  decide

/-- C2 (counterexample): one grant of `10 ^ 17` XP to a newly created account ends
at level 84 with `xp = 17818250073463260` and `xpToNextLevel = 41090874963268480`,
while `f^83(100) = 41090874963268477` for `f(t) = floor(1.5 * t)`: there is no `k`
with `level' = level + k` and `xpToNextLevel' = f^k(100)`. -/
theorem addXP_reference_counterexample :
    (addXP 200 100000000000000000 (newAccount 0 0)).map
        (fun r => (r.doc.level, r.doc.xp, r.doc.xpToNextLevel))
      = some (84, 17818250073463260, 41090874963268480) ∧
    UserProgress.growThreshold^[83] 100 = 41090874963268477 ∧
    ¬ ∃ k : Nat, (84 : Int) = (newAccount 0 0).level + k ∧
      (41090874963268480 : Int)
        = UserProgress.growThreshold^[k] (newAccount 0 0).xpToNextLevel := by
  have h83 := growThreshold_iterate_83
  refine ⟨by rw [addXP_large_grant]; rfl, h83, ?_⟩
  rintro ⟨k, hk, ht⟩
  have hk' : k = 83 := by
    have : (newAccount 0 0).level = 1 := rfl
    omega
  subst hk'
  have : (newAccount 0 0).xpToNextLevel = 100 := rfl
  rw [this, h83] at ht
  omega

/-- C2 (amended): on doubles `addXP` is the reference level-up loop as long as the
numbers are safe integers. For a valid account with threshold `T > 0`, an amount
`> 0` and a safe grant there is a number `k` of level-ups with the saved
`level' = level + k`, `xpToNextLevel' = f^k(T)` and
`xp + amount = xp' + T + f(T) + ... + f^(k-1)(T)`, `k` being the first index at which
the remainder is below `f^k(T)`. On a newly created account a grant of 120 gives
`{2, 20, 150}` and a further grant of 150 gives `{3, 20, 225}`. -/
theorem addXP_reference_loop_safe :
    (∀ (s : Account) (amount : Int) (fuel : Nat),
      0 < s.xpToNextLevel → 0 < amount → schemaValid s = true → SafeGrant s amount →
      (s.xp + amount).toNat < fuel →
      ∃ (s' : Account) (k : Nat), addXP fuel amount s = some (SaveResult.saved s') ∧
        s'.level = s.level + k ∧
        s'.xpToNextLevel = UserProgress.growThreshold^[k] s.xpToNextLevel ∧
        s.xp + amount
          = s'.xp + ∑ i in Finset.range k, UserProgress.growThreshold^[i] s.xpToNextLevel ∧
        s'.xp < UserProgress.growThreshold^[k] s.xpToNextLevel ∧
        ∀ j : Nat, j < k → UserProgress.growThreshold^[j] s.xpToNextLevel
          ≤ s.xp + amount
            - ∑ i in Finset.range j, UserProgress.growThreshold^[i] s.xpToNextLevel) ∧
    (addXP 121 120 (newAccount 0 0)).map
        (fun r => (r.doc.level, r.doc.xp, r.doc.xpToNextLevel)) = some (2, 20, 150) ∧
    ((addXP 121 120 (newAccount 0 0)).bind (fun r => addXP 171 150 r.doc)).map
        (fun r => (r.doc.level, r.doc.xp, r.doc.xpToNextLevel)) = some (3, 20, 225) := by
  refine ⟨?_, by decide, by decide⟩
  intro s amount fuel hT ha hv hsafe hfuel
  obtain ⟨s', k, hrun, hrest⟩ := addXP_reference_loop.1 s amount fuel hT ha hfuel
  have hx : 0 ≤ s.xp + amount := by
    simp only [schemaValid, Bool.and_eq_true, decide_eq_true_eq] at hv
    omega
  exact ⟨s', k, addXP_saved hT hsafe hv hx hrun, hrest⟩

theorem addXP_reference_loop_safe_witness :
    ∃ (s' : Account) (k : Nat), addXP 121 120 (newAccount 0 0) = some (SaveResult.saved s') ∧
      s'.level = (newAccount 0 0).level + k ∧
      s'.xpToNextLevel = UserProgress.growThreshold^[k] (newAccount 0 0).xpToNextLevel ∧
      (newAccount 0 0).xp + 120
        = s'.xp
          + ∑ i in Finset.range k, UserProgress.growThreshold^[i] (newAccount 0 0).xpToNextLevel ∧
      s'.xp < UserProgress.growThreshold^[k] (newAccount 0 0).xpToNextLevel ∧
      ∀ j : Nat, j < k → UserProgress.growThreshold^[j] (newAccount 0 0).xpToNextLevel
        ≤ (newAccount 0 0).xp + 120
          - ∑ i in Finset.range j,
              UserProgress.growThreshold^[i] (newAccount 0 0).xpToNextLevel :=
  addXP_reference_loop_safe.1 (newAccount 0 0) 120 121 (by decide) (by decide) (by decide)
    (by unfold SafeGrant; decide) (by decide)

theorem levelUpStep_spinning (level : Int) :
    levelUpStep (spinning level) = spinning (fl (level + 1)) := by
  have h₁ : fl (18014398509481984 - 1) = 18014398509481984 := by decide
  have h₂ : growThreshold 1 = 1 := by decide
  simp only [levelUpStep, spinning, h₁, h₂]

theorem levelUpLoop_spinning : ∀ (fuel : Nat) (level : Int),
    levelUpLoop fuel (spinning level) = none := by
  intro fuel
  induction fuel with
  | zero => intro level; rfl
  | succ n ih =>
    intro level
    rw [levelUpLoop, if_pos (by simp [spinning]), levelUpStep_spinning]
    exact ih _

/-- C4 (the code at the failing input): on the account with `xpToNextLevel = 1`,
where `Math.floor(1 * 1.5) = 1` leaves the threshold at 1, the level-up loop of
`addXP(2 ^ 54)` does not end: `2 ^ 54 - 1` is stored as `2 ^ 54`, so `xp` never
decreases, and no amount of fuel gives a result. -/
theorem addXP_threshold_one_spins :
    (accountWithThreshold 1).xpToNextLevel = 1 ∧ growThreshold 1 = 1 ∧
    fl (18014398509481984 - 1) = 18014398509481984 ∧
    ∀ fuel : Nat, addXP fuel 18014398509481984 (accountWithThreshold 1) = none := by
  refine ⟨rfl, by decide, by decide, ?_⟩
  intro fuel
  have h : creditXP 18014398509481984 (accountWithThreshold 1) = spinning 1 := by decide
  unfold addXP
  rw [h, levelUpLoop_spinning]
  rfl

/-- C6 (counterexample): with `totalXpEarned = 2 ^ 53` a grant of 1 is saved and
leaves `totalXpEarned` at `2 ^ 53`; and `addXP(-60)` on an account holding 50 XP is
refused by the validator of `xp`, so the stored account does not change. -/
theorem addXP_totals_counterexample :
    saturatedAccount.totalXpEarned = 9007199254740992 ∧
    (addXP 2 1 saturatedAccount).map
        (fun r => (decide (r = SaveResult.saved r.doc), r.doc.totalXpEarned, r.doc.xp))
      = some (true, 9007199254740992, 1) ∧
    addXP 2 (-60) fundedAccount = some (SaveResult.rejected fundedAccount) := by
  decide

/-- C6 (amended): for a valid account with a positive threshold and an amount with
`0 ≤ xp + amount ≤ 2 ^ 53` for which `totalXpEarned + amount` and
`todayProgress.xpEarned + amount` have a magnitude of at most `2 ^ 53`,
`addXP(amount)` is saved, `totalXpEarned` and `todayProgress.xpEarned` have grown by
exactly `amount`, whatever the number of level-ups, and `cups`, `totalCupsEarned`,
`achievements`, `currentStreak`, `longestStreak` and `lastActivityDate` are
unchanged. -/
theorem addXP_totals_safe (s : Account) (amount : Int) (fuel : Nat)
    (hT : 0 < s.xpToNextLevel) (hv : schemaValid s = true)
    (hx : 0 ≤ s.xp + amount) (hx' : s.xp + amount ≤ 9007199254740992)
    (ht₀ : -9007199254740992 ≤ s.totalXpEarned + amount)
    (ht₁ : s.totalXpEarned + amount ≤ 9007199254740992)
    (hd₀ : -9007199254740992 ≤ s.todayProgress.xpEarned + amount)
    (hd₁ : s.todayProgress.xpEarned + amount ≤ 9007199254740992)
    (hfuel : (s.xp + amount).toNat < fuel) :
    ∃ s', addXP fuel amount s = some (SaveResult.saved s') ∧
      s'.totalXpEarned = s.totalXpEarned + amount ∧
      s'.todayProgress.xpEarned = s.todayProgress.xpEarned + amount ∧
      s'.todayProgress.minutesStudied = s.todayProgress.minutesStudied ∧
      s'.todayProgress.lessonsCompleted = s.todayProgress.lessonsCompleted ∧
      s'.todayProgress.lastResetDate = s.todayProgress.lastResetDate ∧
      s'.cups = s.cups ∧ s'.totalCupsEarned = s.totalCupsEarned ∧
      s'.achievements = s.achievements ∧
      s'.currentStreak = s.currentStreak ∧ s'.longestStreak = s.longestStreak ∧
      s'.lastActivityDate = s.lastActivityDate := by
  obtain ⟨s', hrun, -, -, -, -, -, hsame⟩ := addXP_finishes s amount hT hv hx hx'
  obtain ⟨-, h1, h2, h3, h4, h5, h6, h7, -, -, h8, -, -⟩ := hsame
  simp only [creditXP] at h1 h2 h3 h4 h5 h6 h7 h8
  rw [fl_of_safe ht₀ ht₁] at h1
  rw [fl_of_safe hd₀ hd₁] at h8
  exact ⟨s', hrun fuel hfuel, by simp [h1, h2, h3, h4, h5, h6, h7, h8]⟩

theorem addXP_totals_safe_witness :
    ∃ s', addXP 1001 1000 (newAccount 0 0) = some (SaveResult.saved s') ∧
      s'.totalXpEarned = (newAccount 0 0).totalXpEarned + 1000 ∧
      s'.todayProgress.xpEarned = (newAccount 0 0).todayProgress.xpEarned + 1000 ∧
      s'.todayProgress.minutesStudied = (newAccount 0 0).todayProgress.minutesStudied ∧
      s'.todayProgress.lessonsCompleted = (newAccount 0 0).todayProgress.lessonsCompleted ∧
      s'.todayProgress.lastResetDate = (newAccount 0 0).todayProgress.lastResetDate ∧
      s'.cups = (newAccount 0 0).cups ∧
      s'.totalCupsEarned = (newAccount 0 0).totalCupsEarned ∧
      s'.achievements = (newAccount 0 0).achievements ∧
      s'.currentStreak = (newAccount 0 0).currentStreak ∧
      s'.longestStreak = (newAccount 0 0).longestStreak ∧
      s'.lastActivityDate = (newAccount 0 0).lastActivityDate :=
  addXP_totals_safe (newAccount 0 0) 1000 1001 (by decide) (by decide) (by decide) (by decide)
    (by decide) (by decide) (by decide) (by decide) (by decide)

/-- C7 (counterexample): with `cups = totalCupsEarned = 2 ^ 53` the call `addCups(1)`
is saved and leaves both at `2 ^ 53`; and `addCups(-10)` on an account holding 5
cups is refused by the validator of `cups`, so the stored account does not change. -/
theorem addCups_counterexample :
    (saturatedAccount.cups, saturatedAccount.totalCupsEarned)
      = (9007199254740992, 9007199254740992) ∧
    addCups 1 saturatedAccount = SaveResult.saved saturatedAccount ∧
    addCups (-10) fundedAccount = SaveResult.rejected fundedAccount := by
  decide

/-- C7 (amended): on a valid account, when `cups + amount` lies between 0 and
`2 ^ 53` and `totalCupsEarned + amount` is a safe integer, `addCups(amount)` is
saved, adds exactly `amount` to `cups` and to `totalCupsEarned` and writes nothing
else. -/
theorem addCups_safe (s : Account) (amount : Int) (hv : schemaValid s = true)
    (h₁ : 0 ≤ s.cups + amount) (h₂ : s.cups + amount ≤ 9007199254740992)
    (h₃ : -9007199254740992 ≤ s.totalCupsEarned + amount)
    (h₄ : s.totalCupsEarned + amount ≤ 9007199254740992) :
    ∃ s', addCups amount s = SaveResult.saved s' ∧
      s'.cups = s.cups + amount ∧ s'.totalCupsEarned = s.totalCupsEarned + amount ∧
      s'.level = s.level ∧ s'.xp = s.xp ∧ s'.xpToNextLevel = s.xpToNextLevel ∧
      s'.totalXpEarned = s.totalXpEarned ∧ s'.todayProgress = s.todayProgress ∧
      s'.currentStreak = s.currentStreak ∧ s'.longestStreak = s.longestStreak ∧
      s'.lastActivityDate = s.lastActivityDate ∧
      s'.streakFreezeUsed = s.streakFreezeUsed ∧ s'.achievements = s.achievements ∧
      s'.userId = s.userId ∧ s'.dailyGoals = s.dailyGoals ∧
      s'.stats = s.stats ∧ s'.rankings = s.rankings := by
  refine ⟨{ s with cups := s.cups + amount, totalCupsEarned := s.totalCupsEarned + amount }, ?_,
    rfl, rfl, rfl, rfl, rfl, rfl, rfl, rfl, rfl, rfl, rfl, rfl, rfl, rfl, rfl, rfl⟩
  unfold addCups save
  rw [fl_of_safe (by omega) h₂, fl_of_safe h₃ h₄, if_pos]
  simp only [schemaValid, Bool.and_eq_true, decide_eq_true_eq] at hv ⊢
  exact ⟨⟨hv.1.1, hv.1.2⟩, h₁⟩

theorem addCups_safe_witness :
    ∃ s', addCups 7 fundedAccount = SaveResult.saved s' ∧
      s'.cups = fundedAccount.cups + 7 ∧
      s'.totalCupsEarned = fundedAccount.totalCupsEarned + 7 ∧
      s'.level = fundedAccount.level ∧ s'.xp = fundedAccount.xp ∧
      s'.xpToNextLevel = fundedAccount.xpToNextLevel ∧
      s'.totalXpEarned = fundedAccount.totalXpEarned ∧
      s'.todayProgress = fundedAccount.todayProgress ∧
      s'.currentStreak = fundedAccount.currentStreak ∧
      s'.longestStreak = fundedAccount.longestStreak ∧
      s'.lastActivityDate = fundedAccount.lastActivityDate ∧
      s'.streakFreezeUsed = fundedAccount.streakFreezeUsed ∧
      s'.achievements = fundedAccount.achievements ∧
      s'.userId = fundedAccount.userId ∧ s'.dailyGoals = fundedAccount.dailyGoals ∧
      s'.stats = fundedAccount.stats ∧ s'.rankings = fundedAccount.rankings :=
  addCups_safe fundedAccount 7 (by decide) (by decide) (by decide) (by decide) (by decide)

/-! ## Thresholds of reachable accounts, on doubles -/

/-- What a finished run of the loop on doubles does to level and threshold, as long
as the level stays below `2 ^ 52`. -/
theorem levelUpLoop_levels : ∀ (fuel : Nat) (s s' : Account),
    levelUpLoop fuel s = some s' → 1 ≤ s.level →
    1 ≤ s'.level ∧ (s'.level < 4503599627370496 →
      ∃ k : Nat, s'.level = s.level + k ∧ s'.xpToNextLevel = growThreshold^[k] s.xpToNextLevel) := by
  intro fuel
  induction fuel with
  | zero => intro s s' h; simp [levelUpLoop] at h
  | succ n ih =>
    intro s s' h hl
    unfold levelUpLoop at h
    by_cases hc : s.xpToNextLevel ≤ s.xp
    · rw [if_pos hc] at h
      by_cases hbig : s.level + 1 ≤ 9007199254740992
      · have e : (levelUpStep s).level = s.level + 1 := by
          simp only [levelUpStep]
          exact fl_of_safe (by omega) hbig
        obtain ⟨h1, h2⟩ := ih _ _ h (by rw [e]; omega)
        refine ⟨h1, fun hsmall => ?_⟩
        obtain ⟨k, hk, ht⟩ := h2 hsmall
        refine ⟨k + 1, ?_, ?_⟩
        · rw [hk, e]; push_cast; ring
        · rw [ht, Function.iterate_succ_apply]; rfl
      · have e : 4503599627370496 ≤ (levelUpStep s).level := by
          simp only [levelUpStep]
          exact fl_of_large (by omega)
        obtain ⟨h1, h2⟩ := ih _ _ h (by omega)
        refine ⟨h1, fun hsmall => ?_⟩
        obtain ⟨k, hk, -⟩ := h2 hsmall
        omega
    · rw [if_neg hc] at h
      cases h
      exact ⟨hl, fun _ => ⟨0, by simp, rfl⟩⟩

/-- On a reachable account the level is at least 1 and, below `2 ^ 52`, fixes the
threshold as an iterate of the rounded growth from 100. -/
theorem reachable_level_threshold {s : Account} (h : Reachable s) :
    1 ≤ s.level ∧ (s.level < 4503599627370496 →
      s.xpToNextLevel = growThreshold^[(s.level - 1).toNat] 100) := by
  induction h with
  | init userId now => exact ⟨by simp [newAccount], fun _ => rfl⟩
  | @grant s r fuel amount _ _ hrun ih =>
    obtain ⟨hl, ht⟩ := ih
    unfold addXP at hrun
    simp only [Option.map_eq_some'] at hrun
    obtain ⟨s', hs', rfl⟩ := hrun
    unfold save
    by_cases hv : schemaValid s' = true
    · rw [if_pos hv]
      simp only [SaveResult.doc]
      obtain ⟨h1, h2⟩ := levelUpLoop_levels _ _ _ hs' (by simpa [creditXP] using hl)
      refine ⟨h1, fun hsmall => ?_⟩
      obtain ⟨k, hk, hT⟩ := h2 hsmall
      simp only [creditXP] at hk hT
      rw [hT, ht (by omega), ← Function.iterate_add_apply]
      congr 1
      omega
    · rw [if_neg hv]
      exact ⟨hl, ht⟩

set_option maxRecDepth 1000000 in
/-- Up to 80 level-ups from 100 the rounded growth and the exact growth agree. -/
theorem growThreshold_iterate_agree :
    ∀ j : Nat, j < 81 → growThreshold^[j] 100 = UserProgress.growThreshold^[j] 100 := by
  decide

theorem reachable_afterFirstGrant : Reachable afterFirstGrant :=
  Reachable.grant (r := SaveResult.saved afterFirstGrant) 121 120 (Reachable.init 0 0)
    (by decide) (by decide)

theorem reachable_afterLargeGrant : Reachable afterLargeGrant :=
  Reachable.grant (r := SaveResult.saved afterLargeGrant) 200 100000000000000000
    (Reachable.init 0 0) (by decide) addXP_large_grant

/-- C8 (counterexample): the account reached from a newly created one by the single
grant `addXP(10 ^ 17)` is at level 84 with `xpToNextLevel = 41090874963268480`,
while `f^83(100) = 41090874963268477`. -/
theorem reachable_threshold_counterexample :
    Reachable afterLargeGrant ∧ afterLargeGrant.level = 84 ∧
    afterLargeGrant.xpToNextLevel = 41090874963268480 ∧
    UserProgress.growThreshold^[(afterLargeGrant.level - 1).toNat] 100 = 41090874963268477 ∧
    afterLargeGrant.xpToNextLevel
      ≠ UserProgress.growThreshold^[(afterLargeGrant.level - 1).toNat] 100 := by
  have e : (afterLargeGrant.level - 1).toNat = 83 := by decide
  refine ⟨reachable_afterLargeGrant, rfl, rfl, ?_, ?_⟩
  · rw [e]; exact growThreshold_iterate_83
  · rw [e, growThreshold_iterate_83]; decide

/-- C8 (amended): on every account reachable from a newly created one by `addXP`
calls with positive amounts and whose level is at most 81, `xpToNextLevel` equals
`f^(level-1)(100)` with `f(t) = floor(1.5 * t)` (100, 150, 225, 337, 505, ...), it is
positive, and of two such accounts the one at the higher level has the strictly
larger threshold. -/
theorem reachable_threshold_up_to_81 :
    (∀ s : Account, Reachable s → s.level ≤ 81 →
      1 ≤ s.level ∧
      s.xpToNextLevel = UserProgress.growThreshold^[(s.level - 1).toNat] 100 ∧
      0 < s.xpToNextLevel) ∧
    (∀ s₁ s₂ : Account, Reachable s₁ → Reachable s₂ → s₁.level < s₂.level →
      s₂.level ≤ 81 → s₁.xpToNextLevel < s₂.xpToNextLevel) ∧
    (UserProgress.growThreshold^[0] 100 = 100 ∧ UserProgress.growThreshold^[1] 100 = 150 ∧
      UserProgress.growThreshold^[2] 100 = 225 ∧ UserProgress.growThreshold^[3] 100 = 337 ∧
      UserProgress.growThreshold^[4] 100 = 505) := by
  have key : ∀ s : Account, Reachable s → s.level ≤ 81 →
      1 ≤ s.level ∧ s.xpToNextLevel = thresholdAfter 100 (s.level - 1).toNat := by
    intro s hs h81
    obtain ⟨hl, ht⟩ := reachable_level_threshold hs
    refine ⟨hl, ?_⟩
    rw [ht (by omega), growThreshold_iterate_agree _ (by omega)]
    rfl
  refine ⟨?_, ?_, by decide⟩
  · intro s hs h81
    obtain ⟨hl, ht⟩ := key s hs h81
    refine ⟨hl, ht, ?_⟩
    have := thresholdAfter_hundred_ge (s.level - 1).toNat
    omega
  · intro s₁ s₂ h₁ h₂ hlt h81
    obtain ⟨hl₁, ht₁⟩ := key s₁ h₁ (by omega)
    obtain ⟨hl₂, ht₂⟩ := key s₂ h₂ h81
    rw [ht₁, ht₂]
    exact thresholdAfter_hundred_strictMono (by omega)

theorem reachable_threshold_up_to_81_witness :
    (Reachable afterFirstGrant ∧ afterFirstGrant.level ≤ 81 ∧ 1 ≤ afterFirstGrant.level ∧
      afterFirstGrant.xpToNextLevel
        = UserProgress.growThreshold^[(afterFirstGrant.level - 1).toNat] 100 ∧
      0 < afterFirstGrant.xpToNextLevel) ∧
    (newAccount 0 0).xpToNextLevel < afterFirstGrant.xpToNextLevel :=
  ⟨⟨reachable_afterFirstGrant, by decide,
      reachable_threshold_up_to_81.1 afterFirstGrant reachable_afterFirstGrant (by decide)⟩,
    reachable_threshold_up_to_81.2.1 (newAccount 0 0) afterFirstGrant (Reachable.init 0 0)
      reachable_afterFirstGrant (by decide) (by decide)⟩

/-! ## Splitting a grant, on doubles -/

/-- C28 (counterexample): from `totalXpEarned = 2 ^ 53`, `addXP(1)` followed by
`addXP(1)` leaves `totalXpEarned` at `2 ^ 53`, while the single grant `addXP(2)`
gives `2 ^ 53 + 2`. -/
theorem addXP_additive_counterexample :
    saturatedAccount.totalXpEarned = 9007199254740992 ∧
    ((addXP 3 1 saturatedAccount).bind (fun r => addXP 3 1 r.doc)).map
        (fun r => (r.doc.level, r.doc.xp, r.doc.totalXpEarned))
      = some (1, 2, 9007199254740992) ∧
    (addXP 3 (1 + 1) saturatedAccount).map
        (fun r => (r.doc.level, r.doc.xp, r.doc.totalXpEarned))
      = some (1, 2, 9007199254740994) := by
  decide

/-- C28 (amended): `addXP` is additive as long as the sums are safe integers. For a
valid account with a positive threshold and amounts `a, b ≥ 0` such that
`xp + a + b ≤ 2 ^ 53` and `totalXpEarned` and `todayProgress.xpEarned` are at least
`-2 ^ 53` and at most `2 ^ 53 - (a + b)`, `addXP(a)` followed by `addXP(b)` is saved
twice and ends in the same account, field by field, as the single saved grant
`addXP(a + b)`. -/
theorem addXP_additive_safe (s : Account) (a b : Int) (hT : 0 < s.xpToNextLevel)
    (ha : 0 ≤ a) (hb : 0 ≤ b) (hv : schemaValid s = true)
    (hx : s.xp + (a + b) ≤ 9007199254740992)
    (ht₀ : -9007199254740992 ≤ s.totalXpEarned)
    (ht₁ : s.totalXpEarned + (a + b) ≤ 9007199254740992)
    (hd₀ : -9007199254740992 ≤ s.todayProgress.xpEarned)
    (hd₁ : s.todayProgress.xpEarned + (a + b) ≤ 9007199254740992) :
    ∃ s₁ s₂ : Account,
      (∀ fuel : Nat, (s.xp + a).toNat < fuel → addXP fuel a s = some (SaveResult.saved s₁)) ∧
      (∀ fuel : Nat, (s₁.xp + b).toNat < fuel →
        addXP fuel b s₁ = some (SaveResult.saved s₂)) ∧
      (∀ fuel : Nat, (s.xp + (a + b)).toNat < fuel →
        addXP fuel (a + b) s = some (SaveResult.saved s₂)) := by
  have hv' := hv
  simp only [schemaValid, Bool.and_eq_true, decide_eq_true_eq] at hv'
  obtain ⟨⟨hlev, hxp⟩, hcups⟩ := hv'
  obtain ⟨s₁, h₁, r₁, x₁, y₁, T₁, v₁, -⟩ :=
    addXP_finishes s a hT hv (by omega) (by omega)
  obtain ⟨s₂, h₂, r₂, -⟩ := addXP_finishes s₁ b T₁ v₁ (by omega) (by omega)
  obtain ⟨s₃, h₃, r₃, -⟩ := addXP_finishes s (a + b) hT hv (by omega) hx
  have ea : (creditXP a s).xp = s.xp + a := by
    simp only [creditXP]
    exact fl_of_safe (by omega) (by omega)
  obtain ⟨m', hm'⟩ := levelUpLoop_creditXP_safe b hb _ _ _
    (by simpa [creditXP] using hT) (by rw [ea]; omega) r₁ _ _ r₂
  rw [creditXP_creditXP_safe ha hb (by omega) hx ht₀ ht₁ hd₀ hd₁] at hm'
  have e : s₂ = s₃ := by
    have k1 := levelUpLoop_more_fuel _ _ _ hm' (max m' ((s.xp + (a + b)).toNat + 1))
      (le_max_left _ _)
    have k2 := levelUpLoop_more_fuel _ _ _ r₃ (max m' ((s.xp + (a + b)).toNat + 1))
      (le_max_right _ _)
    rw [k1] at k2
    exact Option.some.inj k2
  subst e
  exact ⟨s₁, s₂, h₁, h₂, h₃⟩

theorem addXP_additive_safe_witness :
    ∃ s₁ s₂ : Account,
      (∀ fuel : Nat, ((newAccount 0 0).xp + 120).toNat < fuel →
        addXP fuel 120 (newAccount 0 0) = some (SaveResult.saved s₁)) ∧
      (∀ fuel : Nat, (s₁.xp + 150).toNat < fuel →
        addXP fuel 150 s₁ = some (SaveResult.saved s₂)) ∧
      (∀ fuel : Nat, ((newAccount 0 0).xp + (120 + 150)).toNat < fuel →
        addXP fuel (120 + 150) (newAccount 0 0) = some (SaveResult.saved s₂)) :=
  addXP_additive_safe (newAccount 0 0) 120 150 (by decide) (by decide) (by decide) (by decide)
    (by decide) (by decide) (by decide) (by decide) (by decide)

end Double

end UserProgress

namespace UserProgress

/-! ## `updateStreak` across the start of daylight saving time -/

/-- In a zone whose offset never changes the zoned method is the method with a fixed
offset. -/
theorem updateStreak_fixedZone (offset now : Int) (s : Account) :
    Zoned.updateStreak (fixedZone offset) now s = updateStreak offset now s := by
  have h : ∀ last, Zoned.dayDiff (fixedZone offset) now last = dayDiff offset now last := by
    intro last
    unfold Zoned.dayDiff Zoned.startOfDay Zoned.calendarDay dayDiff startOfDay fixedZone
    rw [msPerDay_eq]
    simp only
    omega
  unfold Zoned.updateStreak updateStreak
  cases s.lastActivityDate with
  | none => rfl
  | some last => simp only [h]

/-- C11 (the code at the failing input): in New York the last activity is on Sunday
2024-03-10 at 13:00 and `updateStreak()` runs on Monday 2024-03-11 at 12:00, the
next calendar day. The two local midnights are 23 hours apart, `dayDiff` is 0, and
the method returns the account unchanged instead of raising the streak from 3 to
4. -/
theorem updateStreak_next_day_spring_forward :
    Zoned.calendarDay newYork2024 1710172800000
      = Zoned.calendarDay newYork2024 1710090000000 + 1 ∧
    Zoned.startOfDay newYork2024 1710172800000 - Zoned.startOfDay newYork2024 1710090000000
      = 23 * 3600000 ∧
    Zoned.dayDiff newYork2024 1710172800000 1710090000000 = 0 ∧
    Zoned.updateStreak newYork2024 1710172800000 (Zoned.streakSince 1710090000000)
      = Zoned.streakSince 1710090000000 ∧
    (Zoned.streakSince 1710090000000).currentStreak = 3 := by
  refine ⟨?_, ?_, ?_, ?_, ?_⟩ <;> decide

/-- C12 (the code at the failing input): in New York the last activity is on
Saturday 2024-03-09 at 13:00 and `updateStreak()` runs on Monday 2024-03-11 at
12:00, two calendar days later. The two local midnights are 47 hours apart,
`dayDiff` is 1, and the method raises the streak from 3 to 4 (and `longestStreak`
to 4) instead of setting it to 1. -/
theorem updateStreak_gap_spring_forward :
    Zoned.calendarDay newYork2024 1710172800000
      = Zoned.calendarDay newYork2024 1710007200000 + 2 ∧
    Zoned.startOfDay newYork2024 1710172800000 - Zoned.startOfDay newYork2024 1710007200000
      = 47 * 3600000 ∧
    Zoned.dayDiff newYork2024 1710172800000 1710007200000 = 1 ∧
    (Zoned.streakSince 1710007200000).currentStreak = 3 ∧
    (Zoned.updateStreak newYork2024 1710172800000
      (Zoned.streakSince 1710007200000)).currentStreak = 4 ∧
    (Zoned.updateStreak newYork2024 1710172800000
      (Zoned.streakSince 1710007200000)).longestStreak = 4 := by
  refine ⟨?_, ?_, ?_, ?_, ?_, ?_⟩ <;> decide

end UserProgress

namespace RoadmapController

open UserRoadmapProgress

/-- C21 (counterexample): for a level with `minXP = 0` that is not unlocked and a
roadmap document with `totalXpEarned = -5`, the total is below `minXP`, but
`checkLevelUnlock` lists no reason and reports `unlocked: true`. -/
theorem checkLevelUnlock_zero_threshold_counterexample :
    (rewardingLevel 2).unlockRequirements.minXP = 0 ∧
    ({ create 0 0 with totalXpEarned := -5 } : Progress).totalXpEarned
      < (rewardingLevel 2).unlockRequirements.minXP ∧
    (rewardingLevel 2).id ∉ unlockedIds { create 0 0 with totalXpEarned := -5 } ∧
    checkLevelUnlock
        { level := rewardingLevel 2, progress := some { create 0 0 with totalXpEarned := -5 },
          account := UserProgress.newAccount 0 0 }
      = CheckReply.checked true [] := by
  refine ⟨?_, ?_, ?_, ?_⟩ <;> decide

/-- C21 (amended): for a level that is not already unlocked, `checkLevelUnlock`
evaluates each requirement independently. Its reasons list has the entry for the
previous level exactly when there is one and it is not in `completedLevels`, the XP
entry exactly when `minXP ≠ 0` and the total XP is below `minXP`, the cups entry
exactly when `minCups ≠ 0` and the total cups are below `minCups`, each at most once
and nothing else; and `unlocked` is true if and only if the list is empty. -/
theorem checkLevelUnlock_reasons (w : World) (p : Progress) (hp : w.progress = some p)
    (hlocked : w.level.id ∉ unlockedIds p) :
    ((checkLevelUnlock w).unlocked = true ↔ (checkLevelUnlock w).reasons = []) ∧
    (Reason.previousLevelNotCompleted ∈ (checkLevelUnlock w).reasons ↔
      ∃ q, w.level.unlockRequirements.previousLevel = some q ∧ q ∉ completedIds p) ∧
    (Reason.needXP w.level.unlockRequirements.minXP p.totalXpEarned
        ∈ (checkLevelUnlock w).reasons ↔
      w.level.unlockRequirements.minXP ≠ 0 ∧
        p.totalXpEarned < w.level.unlockRequirements.minXP) ∧
    (Reason.needCups w.level.unlockRequirements.minCups p.totalCupsEarned
        ∈ (checkLevelUnlock w).reasons ↔
      w.level.unlockRequirements.minCups ≠ 0 ∧
        p.totalCupsEarned < w.level.unlockRequirements.minCups) ∧
    (∀ r ∈ (checkLevelUnlock w).reasons,
      r = Reason.previousLevelNotCompleted ∨
      r = Reason.needXP w.level.unlockRequirements.minXP p.totalXpEarned ∨
      r = Reason.needCups w.level.unlockRequirements.minCups p.totalCupsEarned) ∧
    (checkLevelUnlock w).reasons.Nodup := by
  have hc := checkLevelUnlock_of_locked w p hp hlocked
  rw [hc]
  simp only [CheckReply.unlocked, CheckReply.reasons, decide_eq_true_eq]
  refine ⟨trivial, mem_unlockReasons_previous w.level p, ?_, ?_, ?_, ?_⟩
  · constructor
    · intro h
      exact (mem_unlockReasons_xp w.level p).1 ⟨_, _, h⟩
    · intro h
      unfold unlockReasons
      simp only [List.mem_append]
      refine Or.inl (Or.inr ?_)
      rw [if_pos h]
      simp
  · constructor
    · intro h
      exact (mem_unlockReasons_cups w.level p).1 ⟨_, _, h⟩
    · intro h
      unfold unlockReasons
      simp only [List.mem_append]
      refine Or.inr ?_
      rw [if_pos h]
      simp
  · intro r hr
    unfold unlockReasons at hr
    simp only [List.mem_append] at hr
    rcases hr with (hr | hr) | hr
    · left
      split at hr
      · split_ifs at hr
        · simp at hr
        · simpa using hr
      · simp at hr
    · right; left
      split_ifs at hr
      · simpa using hr
      · simp at hr
    · right; right
      split_ifs at hr
      · simpa using hr
      · simp at hr
  · simp only [unlockReasons]
    cases w.level.unlockRequirements.previousLevel <;> simp only <;> split_ifs <;> simp

theorem checkLevelUnlock_reasons_witness :
    Reason.needXP (gatedWorld 50 (UserProgress.newAccount 0 0)).level.unlockRequirements.minXP
        ({ create 0 0 with totalXpEarned := 50 } : Progress).totalXpEarned
        ∈ (checkLevelUnlock (gatedWorld 50 (UserProgress.newAccount 0 0))).reasons ↔
      (gatedWorld 50 (UserProgress.newAccount 0 0)).level.unlockRequirements.minXP ≠ 0 ∧
        ({ create 0 0 with totalXpEarned := 50 } : Progress).totalXpEarned
          < (gatedWorld 50 (UserProgress.newAccount 0 0)).level.unlockRequirements.minXP :=
  (checkLevelUnlock_reasons (gatedWorld 50 (UserProgress.newAccount 0 0))
    { create 0 0 with totalXpEarned := 50 } rfl (by decide)).2.2.1

end RoadmapController

namespace UserRoadmapProgress

namespace Raw

open UserProgress.Double

/-! ## The percentage stored by `updateLevelProgress` -/

theorem roundHalfEven_le_of_le_mul {n p k : Nat} (h : n ≤ k * p) :
    roundHalfEven n p ≤ k := by
  rcases Nat.eq_zero_or_pos p with hp | hp
  · subst hp
    have hn : n = 0 := by omega
    subst hn
    simp [roundHalfEven]
  · have hdm := Nat.div_add_mod n p
    have hq : n / p ≤ k := by
      apply Nat.div_le_of_le_mul
      rw [Nat.mul_comm]; exact h
    by_cases hr : n % p = 0
    · unfold roundHalfEven
      rw [if_pos (by omega)]
      exact hq
    · have hlt : n / p < k := by
        by_contra hge
        have hk : k ≤ n / p := by omega
        have : k * p ≤ (n / p) * p := Nat.mul_le_mul_right p hk
        have : p * (n / p) = (n / p) * p := Nat.mul_comm _ _
        omega
      unfold roundHalfEven
      split_ifs <;> omega

theorem spacingFrom_pow : ∀ (fuel x j e : Nat), x ≤ 100 * 2 ^ e → j ≤ e →
    ∃ i, i ≤ e ∧ spacingFrom fuel x (2 ^ j) = 2 ^ i := by
  intro fuel
  induction fuel with
  | zero => intro x j e _ hj; exact ⟨j, hj, rfl⟩
  | succ n ih =>
    intro x j e hx hj
    unfold spacingFrom
    by_cases hc : x < 9007199254740992 * 2 ^ j
    · rw [if_pos hc]; exact ⟨j, hj, rfl⟩
    · rw [if_neg hc]
      have hj' : j + 1 ≤ e := by
        by_contra hge
        have : j = e := by omega
        subst this
        have : 0 < 2 ^ j := Nat.pow_pos (by omega)
        omega
      have e2 : 2 * 2 ^ j = 2 ^ (j + 1) := by rw [pow_succ]; ring
      rw [e2]
      exact ih x (j + 1) e hx hj'

theorem roundNat_le_hundred {m e : Nat} (h : m ≤ 2 ^ e) : roundNat (100 * m) ≤ 100 * 2 ^ e := by
  have hx : 100 * m ≤ 100 * 2 ^ e := by omega
  obtain ⟨i, hi, hs⟩ := spacingFrom_pow 1100 (100 * m) 0 e hx (Nat.zero_le _)
  have hs' : spacing (100 * m) = 2 ^ i := by
    unfold spacing
    simpa using hs
  unfold roundNat
  rw [hs']
  have hsplit : 2 ^ e = 2 ^ (e - i) * 2 ^ i := by
    rw [← pow_add]; congr 1; omega
  have hle : roundHalfEven (100 * m) (2 ^ i) ≤ 100 * 2 ^ (e - i) := by
    apply roundHalfEven_le_of_le_mul
    calc 100 * m ≤ 100 * 2 ^ e := hx
      _ = 100 * 2 ^ (e - i) * 2 ^ i := by rw [hsplit]; ring
  calc 2 ^ i * roundHalfEven (100 * m) (2 ^ i) ≤ 2 ^ i * (100 * 2 ^ (e - i)) :=
        Nat.mul_le_mul_left _ hle
    _ = 100 * 2 ^ e := by rw [hsplit]; ring

theorem divide_le_one {n t : Nat} (ht : 0 < t) (h : n ≤ t) :
    (divide n t).1 ≤ 2 ^ (divide n t).2 := by
  unfold divide
  by_cases h0 : n = 0
  · rw [if_pos h0]; simp
  · rw [if_neg h0, if_neg (by omega)]
    simp only
    apply roundHalfEven_le_of_le_mul
    rw [Nat.mul_comm]
    exact Nat.mul_le_mul_left _ h

theorem roundPercent_nonneg (n : Nat) (t : Int) : 0 ≤ roundPercent n t := by
  unfold roundPercent mathRound
  exact Int.natCast_nonneg _

theorem roundPercent_le_hundred {n : Nat} {t : Int} (ht : 0 < t) (hn : (n : Int) ≤ t) :
    roundPercent n t ≤ 100 := by
  have h1 := divide_le_one (n := n) (t := t.toNat) (by omega) (by omega)
  have h2 := roundNat_le_hundred h1
  unfold roundPercent mathRound timesHundred
  simp only
  have hpos : 0 < 2 ^ (divide n t.toNat).2 := Nat.pow_pos (by omega)
  have h3 : (2 * roundNat (100 * (divide n t.toNat).1) + 2 ^ (divide n t.toNat).2)
      / 2 ^ ((divide n t.toNat).2 + 1) < 101 := by
    apply Nat.div_lt_of_lt_mul
    rw [pow_succ]
    omega
  omega

theorem mem_updateFirst {id : Nat} {f : LevelProgressEntry → LevelProgressEntry}
    {l : List LevelProgressEntry} {x : LevelProgressEntry} (h : x ∈ updateFirst id f l) :
    x ∈ l ∨ ∃ e ∈ l, e.levelId = id ∧ x = f e := by
  induction l with
  | nil => simp [updateFirst] at h
  | cons y ys ih =>
    unfold updateFirst at h
    by_cases hy : (y.levelId == id) = true
    · rw [if_pos hy] at h
      rcases List.mem_cons.1 h with h | h
      · exact Or.inr ⟨y, by simp, by simpa using hy, h⟩
      · exact Or.inl (by simp [h])
    · rw [if_neg hy] at h
      rcases List.mem_cons.1 h with h | h
      · exact Or.inl (by simp [h])
      · rcases ih h with h | ⟨e, he, hid, rfl⟩
        · exact Or.inl (by simp [h])
        · exact Or.inr ⟨e, by simp [he], hid, rfl⟩

theorem unlockLevel_levelProgress (now : Int) (levelId : Nat) (p : Progress) :
    (unlockLevel now levelId p).levelProgress = p.levelProgress := by
  unfold unlockLevel
  split_ifs <;> rfl

theorem completeLevel_levelProgress (now : Int) (levelId : Nat) (score timeTaken : Int)
    (p : Progress) :
    (completeLevel now levelId score timeTaken p).levelProgress = p.levelProgress := by
  unfold completeLevel
  split_ifs <;> rfl

/-- What `updateLevelProgress` stores: an entry from before the call, the new entry
with percentage 0, or the entry of the level with the recomputed percentage. -/
theorem mem_updateLevelProgress {now : Int} {levelId : Nat} {lessonId : UserProgress.RequestId}
    {totalLessons : Int} {p : Progress} {x : LevelProgressEntry}
    (h : x ∈ (updateLevelProgress now levelId lessonId totalLessons p).levelProgress) :
    x ∈ p.levelProgress ∨ x.progressPercentage = 0 ∨
      (x.levelId = levelId ∧
        x.progressPercentage = roundPercent x.completedLessons.length totalLessons) := by
  unfold updateLevelProgress at h
  cases hf : p.levelProgress.find? (fun e => e.levelId == levelId) with
  | none =>
    rw [hf] at h
    simp only [List.mem_append, List.mem_singleton] at h
    rcases h with h | rfl
    · exact Or.inl h
    · exact Or.inr (Or.inl rfl)
  | some y =>
    rw [hf] at h
    rcases mem_updateFirst h with h | ⟨e, -, hid, rfl⟩
    · exact Or.inl h
    · exact Or.inr (Or.inr ⟨hid, rfl⟩)

end Raw

end UserRoadmapProgress

namespace RoadmapController

/-- C29 (counterexample): for a level with one lesson, three `updateLessonProgress`
requests with the lesson strings of the lessons 10, 10 and 11 (each call with
`totalLessons = 1`) leave the entry of the level with the lessons `[10, 11]` and the
percentage 200. -/
theorem updateLessonProgress_percentage_counterexample :
    (oneLessonWorld.level.lessons.length : Int) = 1 ∧
    (updateLessonProgress 2 { value := 11, canonical := true }
        (updateLessonProgress 1 { value := 10, canonical := true }
          (updateLessonProgress 0 { value := 10, canonical := true }
            oneLessonWorld).world).world
      ).world.progress.map
        (fun p => p.levelProgress.map (fun e => (e.levelId, e.completedLessons,
          e.progressPercentage))) = some [(3, [10, 11], 200)] := by
  decide

end RoadmapController

namespace UserRoadmapProgress

namespace Raw

/-- C29 (amended): in every roadmap progress reachable from a newly created one by
`unlockLevel`, `completeLevel` and `updateLevelProgress` calls with
`totalLessons > 0`, every stored `progressPercentage` is `≥ 0`; and when each
`updateLevelProgress` call leaves at most `totalLessons` recorded lessons in the
entry of its level, every stored `progressPercentage` lies between 0 and 100
inclusive. -/
theorem reachable_percentage (p : Progress) :
    (Reachable p → ∀ e ∈ p.levelProgress, 0 ≤ e.progressPercentage) ∧
    (ReachableWithin p →
      ∀ e ∈ p.levelProgress, 0 ≤ e.progressPercentage ∧ e.progressPercentage ≤ 100) := by
  constructor
  · intro h
    induction h with
    | init userId courseId => intro e he; simp [create] at he
    | unlock now levelId _ ih => rw [unlockLevel_levelProgress]; exact ih
    | complete now levelId score timeTaken _ ih => rw [completeLevel_levelProgress]; exact ih
    | lesson now levelId lessonId totalLessons _ ht ih =>
      intro e he
      rcases mem_updateLevelProgress he with h | h | ⟨-, h⟩
      · exact ih e h
      · omega
      · rw [h]; exact roundPercent_nonneg _ _
  · intro h
    induction h with
    | init userId courseId => intro e he; simp [create] at he
    | unlock now levelId _ ih => rw [unlockLevel_levelProgress]; exact ih
    | complete now levelId score timeTaken _ ih => rw [completeLevel_levelProgress]; exact ih
    | lesson now levelId lessonId totalLessons _ ht hwithin ih =>
      intro e he
      rcases mem_updateLevelProgress he with h | h | ⟨hid, h⟩
      · exact ih e h
      · omega
      · rw [h]
        exact ⟨roundPercent_nonneg _ _, roundPercent_le_hundred ht (hwithin e he hid)⟩

theorem reachable_percentage_witness :
    ReachableWithin twoLessonsDone ∧
    twoLessonsDone.levelProgress.map (fun e => (e.levelId, e.completedLessons,
      e.progressPercentage)) = [(3, [10, 11], 100)] ∧
    (0 : Int) ≤ (LevelProgressEntry.mk 3 [10, 11] 2 100 (some 0)).progressPercentage ∧
    (LevelProgressEntry.mk 3 [10, 11] 2 100 (some 0)).progressPercentage ≤ 100 :=
  ⟨ReachableWithin.lesson 2 3 _ 2
      (ReachableWithin.lesson 1 3 _ 2
        (ReachableWithin.lesson 0 3 _ 2 (ReachableWithin.init 0 0) (by decide) (by decide))
        (by decide) (by decide))
      (by decide) (by decide),
    by decide,
    (reachable_percentage twoLessonsDone).2
      (ReachableWithin.lesson 2 3 _ 2
        (ReachableWithin.lesson 1 3 _ 2
          (ReachableWithin.lesson 0 3 _ 2 (ReachableWithin.init 0 0) (by decide) (by decide))
          (by decide) (by decide))
        (by decide) (by decide))
      _ (by decide)⟩

end Raw

end UserRoadmapProgress
